import Mathlib

set_option maxHeartbeats 1000000

/-!
Shallow embedding of the svelte-hypercommands palette core
(src/lib/palette/create.ts together with the error classes of errors.js
and the type declarations of types.ts).

Modelling conventions, used throughout:
* The mutable TS palette/mode state becomes explicit state records;
  every operation is a pure state transformer.
* Async hook results (onRequest / onAction / the navigation hooks) are
  passed to the resolver as explicit outcome parameters; a hook that
  throws is an `Except.error` outcome carrying the thrown value as a
  string.  Fire-and-forget invocations (onError, onUnregister) do not
  touch palette state in the source, so the model only records whether
  an onError handler was invoked (the returned Bool).
* JS arrays are Lean lists; `Array.prototype.sort` with the
  `localeCompare` comparator (a stable sort per ECMA-262) is modelled by
  a stable insertion sort on the cached sort key, under the code-point
  order on strings.
* The external Searcher capability is a black box: its index contents
  are a list (`add` appends, `remove` deletes the first entry carrying
  the removed item's id) and its `search` function is a parameter.
* JS `Map` objects keyed by strings (the mode registry, the shortcut
  cleanup registry) are lists with unique keys; `Map.set` of a present
  key keeps the key set, `Map.delete` erases it.
* DOM side effects (input element value/focus, scrolling, portals,
  key-binding services, `tick`) are outside the embedded core; lines of
  the source that only touch them are noted in comments where dropped.
* The emptyMode constants live in constants.js, which is not among the
  staged sources; their runtime values are modelled as their own names
  (the switch in `_search_and_update` only compares them for equality,
  and TS erases the type, so any other string reaches the default
  branch — exactly the situation the spec's InvalidConfigError covers).
-/

/-- `String.prototype.startsWith`, at the character level (the source
only tests plain prefixes). -/
def strStartsWith (s p : String) : Bool :=
  p.data.isPrefixOf s.data

/-- `String.prototype.slice(n)`: drop the first n characters. -/
def strDrop (s : String) (n : Nat) : String :=
  String.mk (s.data.drop n)

/-- `String.prototype.toLowerCase`, at the character level. -/
def strToLower (s : String) : String :=
  String.mk (s.data.map Char.toLower)

/-- Discriminator of the three item variants (HYPER_ITEM). -/
inductive ItemType where
  | actionable
  | navigable
  | searchable
deriving DecidableEq, Repr

/-- Per-item close policy (ACTIONABLE_CLOSE_ON / NAVIGABLE_CLOSE_ON). -/
inductive CloseOn where
  | always
  | never
  | onTrigger
  | onCancel
  | onSuccess
  | onError
deriving DecidableEq, Repr

/-- Palette-level close action (PALETTE_CLOSE_ACTION). -/
inductive CloseAction where
  | noAction
  | reset
  | keepClose
  | resetClose
deriving DecidableEq, Repr

/-- Sorting mode for the derived sorted raw list (SORT_MODE). -/
inductive SortMode where
  | sorted
  | reversed
  | unsorted
deriving DecidableEq, Repr

/-- Modelled from the spec: constants.js is not under src/, so the
NO_RESULTS_MODE constant values (ALL, HISTORY, NONE — the names used by
the emptyMode switch in create.ts) are modelled as their own names. -/
def NO_RESULTS_MODE_ALL : String := "ALL"

/-- Modelled from the spec: see NO_RESULTS_MODE_ALL. -/
def NO_RESULTS_MODE_HISTORY : String := "HISTORY"

/-- Modelled from the spec: see NO_RESULTS_MODE_ALL. -/
def NO_RESULTS_MODE_NONE : String := "NONE"

/-- A registered item: the shared base shape (id, name, type, the
computed-cache sort key) plus the variant fields the embedded core
reads: the shortcut list (present on Actionable only), the per-item
closeOn policy, whether an onError hook exists, and the Navigable url
data.  Hook function bodies are not state, so they are not stored here;
their outcomes are passed to the resolvers explicitly. -/
structure Item where
  id : String
  name : String
  itype : ItemType
  shortcut : List String
  hcacheSort : String
  closeOn : CloseOn
  hasOnError : Bool
  external : Bool
  url : String
deriving DecidableEq, Repr

/-- The JS `'shortcut' in item` property test: only the Actionable
variant carries a `shortcut` property (types.ts). -/
def hasShortcutProp (i : Item) : Bool :=
  i.itype == ItemType.actionable

/-- Errors from errors.js: the generic palette error class (whose
runtime `name` is HyperPaletteError) and the dedicated DuplicatedIdError
subclass carrying the conflicting id. -/
inductive PaletteErr where
  | hyperPalette (msg : String)
  | duplicatedId (msg : String) (id : Option String)
deriving DecidableEq, Repr

/-- ItemRequestSource with the DOM event payloads dropped. -/
inductive Source where
  | submit
  | shortcutKey (s : String)
  | click
deriving DecidableEq, Repr

/-- The value stored in the shared `error` observable on a failed hook:
`{error, item, source, mode}` (create.ts lines 412-417 and 467-472). -/
structure ErrVal where
  err : String
  item : Item
  source : Source
  mode : String
deriving DecidableEq, Repr

/-- The `selected` observable: `{idx, id}` (the element pointer `el` is
DOM state and is dropped).  `idx = -1` with no id means cleared. -/
structure Selected where
  idx : Int
  sid : Option String
deriving DecidableEq, Repr

/-- The sort strategy chosen once at mode construction
(getModes / PaletteModeSort): by search string, by a key list (both use
the shared stable comparator sorter on the cached key) or a
caller-supplied custom sorter. -/
inductive ModeSort where
  | search (mapper : Item → String)
  | keys (mapper : Item → String)
  | custom (sorter : List Item → List Item)

/-- First item with the given id — the `for ... if (item.id === id) break`
lookup pattern of the source. -/
def lookupById (l : List Item) (i : String) : Option Item :=
  l.find? (fun x => x.id == i)

/-- Index of the first item with the given id (the found_idx scan of
_register_item). -/
def findIdxById : List Item → String → Option Nat
  | [], _ => none
  | x :: xs, i => if x.id = i then some 0 else (findIdxById xs i).map (· + 1)

/-- Searcher.remove / the rawAllSorted splice-by-id loops: delete the
first entry carrying the id. -/
def removeFirstById : List Item → String → List Item
  | [], _ => []
  | x :: xs, i => if x.id = i then xs else x :: removeFirstById xs i

/-- One insertion step of the stable sort on the cached key: an element
is placed after every strictly smaller key and after equal keys met
first, matching a stable comparator sort. -/
def insertByCache (x : Item) : List Item → List Item
  | [] => [x]
  | y :: ys => if y.hcacheSort < x.hcacheSort then y :: insertByCache x ys else x :: y :: ys

/-- defaultItemSorter: `items.sort((a, b) => a.hcache.sort.localeCompare(b.hcache.sort))`,
modelled as a stable insertion sort on the cached key (Array.prototype.sort
is stable, and a stable sort's output is determined by the key order). -/
def defaultItemSorter (l : List Item) : List Item :=
  l.foldr insertByCache []

/-- The hcache.sort assignment of _register_item (line 653):
`(custom ? '' : mapper(item)).toLowerCase()`. -/
def setCacheSort (ms : ModeSort) (x : Item) : Item :=
  match ms with
  | ModeSort.custom _ => { x with hcacheSort := strToLower "" }
  | ModeSort.search m => { x with hcacheSort := strToLower (m x) }
  | ModeSort.keys m => { x with hcacheSort := strToLower (m x) }

/-- `_mode_state.sort.sorter(results)`: the strategy's sorter applied to
a result list (search/keys strategies share defaultItemSorter, custom is
the caller's function). -/
def sorterApply (ms : ModeSort) (l : List Item) : List Item :=
  match ms with
  | ModeSort.custom f => f l
  | ModeSort.search _ => defaultItemSorter l
  | ModeSort.keys _ => defaultItemSorter l

/-- Lines 694-701 of _register_item: copy rawAll, and unless sortMode is
UNSORTED run the sorter, reversing the output for REVERSED. -/
def applySortPipeline (ms : ModeSort) (sm : SortMode) (l : List Item) : List Item :=
  if sm = SortMode.unsorted then l
  else
    let l' := sorterApply ms l
    if sm = SortMode.reversed then l'.reverse else l'

/-- _register_shortcut as it affects the shortcut cleanup registry: an
item with an empty shortcut list registers nothing; otherwise its id
keys the cleanup entry (Map.set keeps the key set when present). -/
def addShortcutKey (keys : List String) (i : Item) : List String :=
  if i.shortcut = [] then keys
  else if keys.contains i.id then keys else keys ++ [i.id]

/-- _unregister_shortcut: delete the id's cleanup entry if present. -/
def removeShortcutKey (keys : List String) (i : Item) : List String :=
  keys.erase i.id

/-- PaletteModeState: one mode's full state.  `mode` is the map key,
`pfx` the configured prefix, `emptyMode`/`sortMode` the relevant config
fields, `hasOnNavigation`/`hasModeOnError` whether the Navigable config
carries those hooks.  `rawAll`/`rawAllSorted`/`itemsView` (items.value)/
`resultsList` (results.value)/`history`/`current`/`searcherList` (the
Searcher index contents)/`lastInput` mirror the source fields. -/
structure ModeState where
  mode : String
  pfx : String
  emptyMode : String
  sortMode : SortMode
  hasOnNavigation : Bool
  hasModeOnError : Bool
  rawAll : List Item
  rawAllSorted : List Item
  itemsView : List Item
  resultsList : List Item
  history : List String
  current : Option Item
  searcherList : List Item
  lastInput : String
deriving DecidableEq, Repr

/-- The palette-level mutable state the resolvers touch: the open flag,
the live search text, the configured closeAction, the error observable,
the selection, and the active mode's state (_mode_state). -/
structure PaletteState where
  isOpen : Bool
  searchText : String
  closeAction : CloseAction
  errorSlot : Option ErrVal
  selected : Selected
  active : ModeState
deriving DecidableEq, Repr

/-- The HISTORY branch of _search_and_update (lines 280-290): walk the
history ids most-recent-first, resolving each against rawAll by first
match and silently skipping ids no longer present. -/
def resolveHistory (raw : List Item) : List String → List Item
  | [] => []
  | i :: rest =>
    match lookupById raw i with
    | some it => it :: resolveHistory raw rest
    | none => resolveHistory raw rest

/-- The empty-pattern switch of _search_and_update (lines 275-297). -/
def emptyQueryResults (m : ModeState) : Except PaletteErr (List Item) :=
  if m.emptyMode = NO_RESULTS_MODE_ALL then Except.ok m.rawAllSorted
  else if m.emptyMode = NO_RESULTS_MODE_HISTORY then Except.ok (resolveHistory m.rawAll m.history)
  else if m.emptyMode = NO_RESULTS_MODE_NONE then Except.ok []
  else Except.error (PaletteErr.hyperPalette ("Invalid empty mode: " ++ m.emptyMode))

/-- _search_and_update: produce the result list (empty-query policy or
Searcher + sorter), store it, and reset the selection to the first
result or to cleared. -/
def search_and_update (searchFn : String → List Item) (ms : ModeSort)
    (s : PaletteState) (pattern : String) : Except PaletteErr PaletteState :=
  match (if pattern = "" then emptyQueryResults s.active
         else Except.ok (sorterApply ms (searchFn pattern))) with
  | Except.error e => Except.error e
  | Except.ok results =>
    let s₁ := { s with active := { s.active with resultsList := results } }
    match results with
    | [] => Except.ok { s₁ with selected := { idx := -1, sid := none } }
    | r :: _ => Except.ok { s₁ with selected := { idx := 0, sid := some r.id } }

/-- _resolve_close_action (lines 367-385): capture lastInput, on
RESET/RESET_CLOSE reset the text to the prefix and re-run the
empty-query pipeline, and on KEEP_CLOSE/RESET_CLOSE set open to true
when (and only when) it was false.  The input element assignment is a
DOM effect and is dropped. -/
def resolve_close_action (searchFn : String → List Item) (ms : ModeSort)
    (s : PaletteState) : Except PaletteErr PaletteState :=
  let shouldReset : Bool :=
    s.closeAction == CloseAction.reset || s.closeAction == CloseAction.resetClose
  let shouldClose : Bool :=
    s.closeAction == CloseAction.keepClose || s.closeAction == CloseAction.resetClose
  let s₀ := { s with active := { s.active with lastInput := s.searchText } }
  match (if shouldReset then
           search_and_update searchFn ms { s₀ with searchText := s₀.active.pfx } ""
         else Except.ok s₀) with
  | Except.error e => Except.error e
  | Except.ok s₂ =>
    Except.ok (if shouldClose && !s₂.isOpen then { s₂ with isOpen := true } else s₂)

/-- `_mode_state.history.value.unshift(item.id)`. -/
def pushHistoryFront (s : PaletteState) (i : String) : PaletteState :=
  { s with active := { s.active with history := i :: s.active.history } }

/-- `_mode_state.current.set c`. -/
def setCurrent (s : PaletteState) (c : Option Item) : PaletteState :=
  { s with active := { s.active with current := c } }

/-- _resolve_actionable (lines 387-443).  `reqCancel` is whether
onRequest resolved to `false`; `actOutcome` is the awaited onAction
outcome (`Except.error` = it threw).  The returned Bool records whether
the item's fire-and-forget onError hook was invoked.  The `finally`
history push runs after the catch body in the early-return error path
and before the success-close branch otherwise, exactly as in JS. -/
def resolve_actionable (searchFn : String → List Item) (ms : ModeSort)
    (s : PaletteState) (item : Item) (source : Source)
    (reqCancel : Bool) (actOutcome : Except String Unit) :
    Except PaletteErr (PaletteState × Bool) :=
  let s₀ := setCurrent s (some item)
  match (if item.closeOn = CloseOn.onTrigger
         then resolve_close_action searchFn ms s₀ else Except.ok s₀) with
  | Except.error e => Except.error e
  | Except.ok s₁ =>
    if reqCancel then
      if item.closeOn = CloseOn.onCancel ∨ item.closeOn = CloseOn.always then
        match resolve_close_action searchFn ms s₁ with
        | Except.error e => Except.error e
        | Except.ok s₂ => Except.ok (setCurrent s₂ none, false)
      else Except.ok (s₁, false)
    else
      match actOutcome with
      | Except.ok _ =>
        let s₂ := { s₁ with errorSlot := none }
        let s₃ := pushHistoryFront s₂ item.id
        match (if item.closeOn = CloseOn.onSuccess ∨ item.closeOn = CloseOn.always
               then resolve_close_action searchFn ms s₃ else Except.ok s₃) with
        | Except.error e => Except.error e
        | Except.ok s₄ => Except.ok (setCurrent s₄ none, false)
      | Except.error e =>
        let s₂ := { s₁ with
          errorSlot := some { err := e, item := item, source := source, mode := s₁.active.mode } }
        let fired := item.hasOnError
        if item.closeOn = CloseOn.onError ∨ item.closeOn = CloseOn.always then
          match resolve_close_action searchFn ms s₂ with
          | Except.error e' => Except.error e'
          | Except.ok s₃ => Except.ok (pushHistoryFront (setCurrent s₃ none) item.id, fired)
        else
          let s₃ := pushHistoryFront s₂ item.id
          match (if item.closeOn = CloseOn.onSuccess ∨ item.closeOn = CloseOn.always
                 then resolve_close_action searchFn ms s₃ else Except.ok s₃) with
          | Except.error e' => Except.error e'
          | Except.ok s₄ => Except.ok (setCurrent s₄ none, fired)

/-- The hook _resolve_navigable runs inside its try: the mode's
onNavigation exclusively when configured, otherwise onExternal for an
external url and onLocal for a local one. -/
def navChosen (s : PaletteState) (item : Item)
    (oNav oExt oLoc : Except String Unit) : Except String Unit :=
  if s.active.hasOnNavigation then oNav
  else if item.external then oExt else oLoc

/-- _resolve_navigable (lines 445-498).  The three outcome parameters
stand for the three possible hooks; `navChosen` selects the one the
source awaits.  Note the source clears `current` on success only inside
the success-close branch (lines 491-497). -/
def resolve_navigable (searchFn : String → List Item) (ms : ModeSort)
    (s : PaletteState) (item : Item) (source : Source)
    (oNav oExt oLoc : Except String Unit) :
    Except PaletteErr (PaletteState × Bool) :=
  let s₀ := setCurrent s (some item)
  match (if item.closeOn = CloseOn.onTrigger
         then resolve_close_action searchFn ms s₀ else Except.ok s₀) with
  | Except.error e => Except.error e
  | Except.ok s₁ =>
    match navChosen s₁ item oNav oExt oLoc with
    | Except.ok _ =>
      let s₂ := { s₁ with errorSlot := none }
      let s₃ := pushHistoryFront s₂ item.id
      if item.closeOn = CloseOn.onSuccess ∨ item.closeOn = CloseOn.always then
        match resolve_close_action searchFn ms s₃ with
        | Except.error e => Except.error e
        | Except.ok s₄ => Except.ok (setCurrent s₄ none, false)
      else Except.ok (s₃, false)
    | Except.error e =>
      let s₂ := { s₁ with
        errorSlot := some { err := e, item := item, source := source, mode := s₁.active.mode } }
      let fired := s₁.active.hasModeOnError
      if item.closeOn = CloseOn.onError ∨ item.closeOn = CloseOn.always then
        match resolve_close_action searchFn ms s₂ with
        | Except.error e' => Except.error e'
        | Except.ok s₃ => Except.ok (pushHistoryFront (setCurrent s₃ none) item.id, fired)
      else
        let s₃ := pushHistoryFront s₂ item.id
        if item.closeOn = CloseOn.onSuccess ∨ item.closeOn = CloseOn.always then
          match resolve_close_action searchFn ms s₃ with
          | Except.error e' => Except.error e'
          | Except.ok s₄ => Except.ok (setCurrent s₄ none, fired)
        else Except.ok (s₃, fired)

/-- _select_next_result (lines 597-615): no-op on empty results; from a
cleared selection pick index 0; otherwise cyclic increment modulo the
result count, updating the id to the item at the new index. -/
def select_next_result (results : List Item) (sel : Selected) : Selected :=
  if results.length = 0 then sel
  else if sel.idx = -1 then
    { idx := 0, sid := (results.get? 0).map Item.id }
  else
    let n := ((sel.idx + 1) % (results.length : Int)).toNat
    { idx := (n : Int), sid := (results.get? n).map Item.id }

/-- _select_previous_result (lines 617-635): no-op on empty results;
from a cleared selection pick the last index; otherwise cyclic decrement
modulo the result count. -/
def select_previous_result (results : List Item) (sel : Selected) : Selected :=
  if results.length = 0 then sel
  else if sel.idx = -1 then
    { idx := (results.length : Int) - 1,
      sid := (results.get? (results.length - 1)).map Item.id }
  else
    let n := ((sel.idx - 1 + (results.length : Int)) % (results.length : Int)).toNat
    { idx := (n : Int), sid := (results.get? n).map Item.id }

/-- A mode as the input scan of on_input sees it: name and prefix, in
registration order. -/
structure ModePre where
  mode : String
  pfx : String
deriving DecidableEq, Repr

/-- What on_input does about searching: run _search_and_update now
(force_search), schedule it after the debounce (setTimeout), or clear
results and selection (_set_empty_results, the unreachable-mode guard). -/
inductive InputEffect where
  | searchNow (q : String)
  | searchLater (q : String)
  | cleared
deriving DecidableEq, Repr

/-- Result of one on_input run: the search text it stored, the mode left
active, and the search effect it chose. -/
structure InputResult where
  searchText : String
  mode : String
  effect : InputEffect
deriving DecidableEq, Repr

/-- on_input (lines 992-1033): store the raw text; when it no longer
starts with the active prefix — or the active prefix is empty, which JS
treats as falsy — scan the modes in registration order for the first
whose prefix matches; a change of mode forces an immediate search with
the text minus the new prefix; otherwise the text minus the active
prefix is searched immediately when debounce is non-positive and
deferred otherwise. -/
def on_input (modes : List ModePre) (activeMode : String) (activePfx : String)
    (debounce : Int) (text : String) : InputResult :=
  let newInputMode :=
    if !(strStartsWith text activePfx) || activePfx == "" then
      match modes.find? (fun m => strStartsWith text m.pfx) with
      | some m => m.mode
      | none => activeMode
    else activeMode
  if newInputMode ≠ activeMode then
    match modes.find? (fun m => m.mode == newInputMode) with
    | none => { searchText := text, mode := activeMode, effect := InputEffect.cleared }
    | some m =>
      { searchText := text, mode := newInputMode,
        effect := InputEffect.searchNow (strDrop text m.pfx.length) }
  else
    let q := strDrop text activePfx.length
    { searchText := text, mode := activeMode,
      effect := if debounce ≤ 0 then InputEffect.searchNow q else InputEffect.searchLater q }

/-- The per-item loop of _register_item (lines 643-692), processed over
the batch: a fresh id is appended to rawAll, the items view and the
Searcher and its shortcuts registered; a found id is replaced in place
under `override` (tearing down the displaced item first), skipped under
`silent`, and otherwise aborts the call with the thrown error.  The
accumulator carries the mode state, the shortcut-cleanup registry, the
new_items list, and the thrown error if any. -/
def regLoop (ms : ModeSort) (override silent : Bool) :
    List Item → ModeState → List String → List Item →
    ModeState × List String × List Item × Option PaletteErr
  | [], s, keys, newItems => (s, keys, newItems, none)
  | candidate :: rest, s, keys, newItems =>
    let newItem := setCacheSort ms candidate
    match findIdxById s.rawAll candidate.id with
    | none =>
      let s' := { s with rawAll := s.rawAll ++ [newItem],
                         itemsView := s.itemsView ++ [newItem],
                         searcherList := s.searcherList ++ [newItem] }
      let keys' := if hasShortcutProp newItem then addShortcutKey keys newItem else keys
      regLoop ms override silent rest s' keys' (newItems ++ [newItem])
    | some i =>
      if override then
        match s.rawAll.get? i with
        | none => regLoop ms override silent rest s keys newItems
        | some removed =>
          let keys₁ := if hasShortcutProp removed then removeShortcutKey keys removed else keys
          let s₁ := { s with searcherList := removeFirstById s.searcherList removed.id }
          let s₂ := { s₁ with rawAll := s₁.rawAll.set i newItem }
          let keys₂ := if hasShortcutProp newItem then addShortcutKey keys₁ newItem else keys₁
          let s₃ := { s₂ with itemsView := s₂.itemsView.set i newItem,
                              searcherList := s₂.searcherList ++ [newItem] }
          regLoop ms override silent rest s₃ keys₂ newItems
      else if silent then
        regLoop ms override silent rest s keys newItems
      else
        (s, keys, newItems,
          some (PaletteErr.hyperPalette
            ("Item with id " ++ candidate.id ++ " already exists in the palette")))

/-- _register_item (lines 637-707): run the per-item loop, then — only
when no error was thrown — recompute rawAllSorted from rawAll through
the sort pipeline.  The state reached at a throw is returned alongside
the error, matching the mutations JS leaves behind.  The open/active
result refresh (lines 705-707) only touches the results view, handled
by search_and_update at the palette layer.  The `Except.ok` payload is
the new_items list the returned reversal closure captures. -/
def register_item (ms : ModeSort) (s : ModeState) (keys : List String)
    (batch : List Item) (override silent : Bool) :
    (ModeState × List String) × Except PaletteErr (List Item) :=
  match regLoop ms override silent batch s keys [] with
  | (s', keys', _, some e) => ((s', keys'), Except.error e)
  | (s', keys', newItems, none) =>
    (({ s' with rawAllSorted := applySortPipeline ms s'.sortMode s'.rawAll }, keys'),
      Except.ok newItems)

/-- The reversal closure returned by _register_item (lines 709-749):
for each item newly added by the call, splice it out of rawAll and the
items view at its current index, remove it from the Searcher, unregister
its shortcuts, fire its onUnregister hook (fire-and-forget, no state),
and splice it out of rawAllSorted by id.  The open/active result refresh
(lines 746-748) only touches the results view. -/
def register_item_cleanup (s : ModeState) (keys : List String) (newItems : List Item) :
    ModeState × List String :=
  newItems.foldl (fun acc ni =>
    match findIdxById acc.1.rawAll ni.id with
    | none => acc
    | some idx =>
      let s₁ := { acc.1 with rawAll := acc.1.rawAll.eraseIdx idx,
                             itemsView := acc.1.itemsView.eraseIdx idx,
                             searcherList := removeFirstById acc.1.searcherList ni.id }
      let keys₁ := if hasShortcutProp ni then removeShortcutKey acc.2 ni else acc.2
      let s₂ := { s₁ with rawAllSorted := removeFirstById s₁.rawAllSorted ni.id }
      (s₂, keys₁)) (s, keys)

/-- An unregisterItem matcher (ItemMatcher): an id, an item reference,
or a predicate. -/
inductive Selector where
  | byId (i : String)
  | byRef (it : Item)
  | byPred (p : Item → Bool)

/-- The to_remove index collection of _unregister_item (lines 758-782):
first hit only for id and reference matchers, every hit for a
predicate. -/
def collectIndices (l : List Item) : Selector → List Nat
  | Selector.byId i =>
    match findIdxById l i with
    | some k => [k]
    | none => []
  | Selector.byRef it =>
    match l.findIdx? (fun x => x == it) with
    | some k => [k]
    | none => []
  | Selector.byPred p =>
    (List.range l.length).filter (fun k => ((l.get? k).map p).getD false)

/-- The removal body of _unregister_item (lines 790-809) for one index:
splice rawAll and the items view, remove from the Searcher, unregister
shortcuts, fire onUnregister (fire-and-forget), splice rawAllSorted by
id. -/
def removeAtIdx (s : ModeState) (keys : List String) (idx : Nat) : ModeState × List String :=
  match s.rawAll.get? idx with
  | none => (s, keys)
  | some removed =>
    let s₁ := { s with rawAll := s.rawAll.eraseIdx idx,
                       itemsView := s.itemsView.eraseIdx idx,
                       searcherList := removeFirstById s.searcherList removed.id }
    let keys₁ := if hasShortcutProp removed then removeShortcutKey keys removed else keys
    let s₂ := { s₁ with rawAllSorted := removeFirstById s₁.rawAllSorted removed.id }
    (s₂, keys₁)

/-- _unregister_item (lines 752-820): per matcher, collect the matching
indices against the current rawAll and remove them from the highest
index down (the source iterates to_remove from its end).  The no-match
short-circuit and the open/active refresh only affect the results view. -/
def unregister_item (s : ModeState) (keys : List String) (sels : List Selector) :
    ModeState × List String :=
  sels.foldl (fun acc sel =>
    (collectIndices acc.1.rawAll sel).reverse.foldl
      (fun a k => removeAtIdx a.1 a.2 k) acc) (s, keys)

/-- The palette's mode registry (_modes) plus the shared shortcut
cleanup registry, as the registration helpers see them. -/
structure PaletteReg where
  modes : List ModeState
  keys : List String

/-- One public registration-surface call: helpers.registerItem or
helpers.unregisterItem with their arguments. -/
inductive PaletteOp where
  | reg (mode : String) (batch : List Item) (override silent : Bool)
  | unreg (mode : String) (sels : List Selector)

/-- `_modes.get(mode)` over the registry list. -/
def findMode (modes : List ModeState) (name : String) : Option ModeState :=
  modes.find? (fun m => m.mode == name)

/-- Store an updated mode state back under its registry key (mode names
are unique by construction, getModes lines 106-107). -/
def setMode (modes : List ModeState) (name : String) (m' : ModeState) : List ModeState :=
  modes.map (fun m => if m.mode == name then m' else m)

/-- helpers.registerItem / helpers.unregisterItem (lines 1161-1175):
an unknown mode name throws UnknownModeError and leaves the registry
untouched; otherwise the mode-level operation runs, and whatever state
it reached — a thrown DuplicateIdError included — is what the registry
keeps.  `sorts` supplies each mode's construction-time sort strategy. -/
def applyOp (sorts : String → ModeSort) (p : PaletteReg) : PaletteOp → PaletteReg
  | PaletteOp.reg mode batch o si =>
    match findMode p.modes mode with
    | none => p
    | some m =>
      let r := register_item (sorts mode) m p.keys batch o si
      { modes := setMode p.modes mode r.1.1, keys := r.1.2 }
  | PaletteOp.unreg mode sels =>
    match findMode p.modes mode with
    | none => p
    | some m =>
      let r := unregister_item m p.keys sels
      { modes := setMode p.modes mode r.1, keys := r.2 }

/-- A whole session of registration-surface calls. -/
def applyOps (sorts : String → ModeSort) (p : PaletteReg) (ops : List PaletteOp) : PaletteReg :=
  ops.foldl (applyOp sorts) p

/-- An empty mode state, as getModes constructs it (lines 198-210). -/
def emptyModeState (name pfx emptyMode : String) (sm : SortMode) : ModeState :=
  { mode := name, pfx := pfx, emptyMode := emptyMode, sortMode := sm,
    hasOnNavigation := false, hasModeOnError := false,
    rawAll := [], rawAllSorted := [], itemsView := [], resultsList := [],
    history := [], current := none, searcherList := [], lastInput := "" }

deriving instance DecidableEq for Except

/-- A minimal concrete item for concrete scenarios: a Searchable (no
shortcut property) whose name is its id. -/
def mkItem (i : String) : Item :=
  { id := i, name := i, itype := ItemType.searchable, shortcut := [],
    hcacheSort := "", closeOn := CloseOn.always, hasOnError := false,
    external := false, url := "" }

/-- Concrete custom sorter for the C4 counterexample: reorders depending
on how many items there are (a caller-supplied sorter may do anything). -/
def c4sorter : List Item → List Item :=
  fun l => if l.length % 2 = 0 then l else l.reverse

/-- The C4 counterexample's mode sort strategy. -/
def c4ms : ModeSort := ModeSort.custom c4sorter

/-- The C4 counterexample's pre-registration state: reachable by
registering items a and b into a fresh SORTED mode with the custom
sorter. -/
def c4pre : ModeState :=
  (register_item c4ms (emptyModeState "m" "" NO_RESULTS_MODE_ALL SortMode.sorted) []
    [mkItem "a", mkItem "b"] false true).1.1

/-- Registering item c into the C4 counterexample state. -/
def c4post : (ModeState × List String) × Except PaletteErr (List Item) :=
  register_item c4ms c4pre [] [mkItem "c"] false true

/-- Every mode of the C2 counterexample palette sorts by name. -/
def c2sorts : String → ModeSort := fun _ => ModeSort.search (fun i => i.name)

/-- Item registered into mode m1, id x. -/
def c2item1 : Item := { mkItem "x" with name := "one" }

/-- A different item with the same id, registered into mode m2. -/
def c2item2 : Item := { mkItem "x" with name := "two" }

/-- The C2 counterexample palette: two modes, then registerItem of an
item with id x into each. -/
def c2pal : PaletteReg :=
  applyOps c2sorts
    { modes := [emptyModeState "m1" "" NO_RESULTS_MODE_ALL SortMode.sorted,
                emptyModeState "m2" ">" NO_RESULTS_MODE_ALL SortMode.sorted],
      keys := [] }
    [PaletteOp.reg "m1" [c2item1] false true, PaletteOp.reg "m2" [c2item2] false true]

/-- c2item1 as stored (its sort key cached at registration). -/
def c2reg1 : Item := { c2item1 with hcacheSort := "one" }

/-- c2item2 as stored. -/
def c2reg2 : Item := { c2item2 with hcacheSort := "two" }

/-- The C3 mode's sort strategy. -/
def c3sort : ModeSort := ModeSort.search (fun i => i.name)

/-- The C3 failing-input state: a mode already holding an item with
id a (reachable from the empty mode by one registration). -/
def c3mode : ModeState :=
  (register_item c3sort (emptyModeState "m" "" NO_RESULTS_MODE_ALL SortMode.sorted) []
    [mkItem "a"] false true).1.1

/-- A mode whose emptyMode field holds one of the three NO_RESULTS_MODE
constants — what getModes always constructs. -/
def validEmpty (em : String) : Prop :=
  em = NO_RESULTS_MODE_ALL ∨ em = NO_RESULTS_MODE_HISTORY ∨ em = NO_RESULTS_MODE_NONE

/-- A trivial Searcher search function for concrete scenarios. -/
def demoSearchFn : String → List Item := fun _ => []

/-- A by-name search sort strategy for concrete scenarios. -/
def demoMsort : ModeSort := ModeSort.search (fun i => i.name)

/-- Concrete palette for the C7 witness: RESET_CLOSE, emptyMode NONE,
closed, with a current item in flight. -/
def c7demo : PaletteState :=
  { isOpen := false, searchText := ">abc", closeAction := CloseAction.resetClose,
    errorSlot := none, selected := { idx := -1, sid := none },
    active := { emptyModeState "m" ">" NO_RESULTS_MODE_NONE SortMode.sorted with
      current := some (mkItem "cur") } }

/-- Concrete actionable item for the C8 witness. -/
def c8item : Item :=
  { mkItem "act" with itype := ItemType.actionable, closeOn := CloseOn.onSuccess }

/-- Concrete palette for the C8 witness: RESET close action, HISTORY
emptyMode, the actionable item registered. -/
def c8demo : PaletteState :=
  { isOpen := true, searchText := "x", closeAction := CloseAction.reset,
    errorSlot := none, selected := { idx := -1, sid := none },
    active := { emptyModeState "m" "" NO_RESULTS_MODE_HISTORY SortMode.sorted with
      rawAll := [c8item], itemsView := [c8item], searcherList := [c8item],
      rawAllSorted := [c8item] } }

/-- Concrete navigable item for the C9 witness. -/
def c9item : Item :=
  { mkItem "nav" with
      itype := ItemType.navigable
      closeOn := CloseOn.always
      hasOnError := true
      url := "/docs" }

/-- Concrete palette for the C9 witness: a mode with an onError
handler. -/
def c9demo : PaletteState :=
  { isOpen := true, searchText := "", closeAction := CloseAction.noAction,
    errorSlot := none, selected := { idx := -1, sid := none },
    active := { emptyModeState "m" "" NO_RESULTS_MODE_ALL SortMode.sorted with
      hasModeOnError := true } }

/-- The invariant maintained by defaultItemSorter: the list is ordered
by the hcache.sort key (code-point order on the lowercased name). -/
def KeySorted (l : List Item) : Prop :=
  l.Pairwise (fun a b => a.hcacheSort ≤ b.hcacheSort)

/-- The ids a batch of freshly inserted actionables adds to the
shortcut cleanup registry: one per item with a shortcut property and a
non-empty shortcut list, in registration order. -/
def actKeyIds : List Item → List String
  | [] => []
  | d :: rest =>
    if hasShortcutProp d = true ∧ d.shortcut ≠ [] then d.id :: actKeyIds rest
    else actKeyIds rest

/-- Concrete consistent mode state for the amended C4 round-trip
witness: a freshly created empty mode. -/
def c4amState : ModeState := emptyModeState "demo" ">" "ALL" SortMode.sorted

/-- C5: selectNext / selectPrevious are no-ops on an empty result list;
from a selected index i they move cyclically to (i+1) mod length and
(i-1+length) mod length, setting the selection id to the item at the
new index; with 3 results and initial index 0, three selectNext calls
return to index 0 and one selectPrevious lands on index 2. -/
theorem c5_selection_cycling :
    (∀ sel : Selected, select_next_result [] sel = sel ∧ select_previous_result [] sel = sel) ∧
    (∀ (results : List Item) (sel : Selected), 0 ≤ sel.idx → results ≠ [] →
      select_next_result results sel =
        { idx := (sel.idx + 1) % (results.length : Int),
          sid := (results.get? (((sel.idx + 1) % (results.length : Int)).toNat)).map Item.id } ∧
      select_previous_result results sel =
        { idx := (sel.idx - 1 + (results.length : Int)) % (results.length : Int),
          sid := (results.get?
            (((sel.idx - 1 + (results.length : Int)) % (results.length : Int)).toNat)).map Item.id }) ∧
    (select_next_result [mkItem "r1", mkItem "r2", mkItem "r3"]
        (select_next_result [mkItem "r1", mkItem "r2", mkItem "r3"]
          (select_next_result [mkItem "r1", mkItem "r2", mkItem "r3"]
            { idx := 0, sid := some "r1" }))
        = { idx := 0, sid := some "r1" } ∧
      select_previous_result [mkItem "r1", mkItem "r2", mkItem "r3"] { idx := 0, sid := some "r1" }
        = { idx := 2, sid := some "r3" }) := by
  refine ⟨?_, ?_, by decide⟩
  · intro sel
    exact ⟨rfl, rfl⟩
  · intro results sel h hne
    have hlen : results.length ≠ 0 := fun hh => hne (List.length_eq_zero.mp hh)
    have hlenz : (results.length : Int) ≠ 0 := by exact_mod_cast hlen
    have hidx : sel.idx ≠ -1 := by omega
    constructor
    · simp only [select_next_result, hlen, hidx, if_false]
      exact congrArg₂ Selected.mk
        (Int.toNat_of_nonneg (Int.emod_nonneg _ hlenz)) rfl
    · simp only [select_previous_result, hlen, hidx, if_false]
      exact congrArg₂ Selected.mk
        (Int.toNat_of_nonneg (Int.emod_nonneg _ hlenz)) rfl

/-- C5 witness: the cyclic formulas applied to two concrete results at
index 1. -/
theorem c5_selection_cycling_witness :
    (0 : Int) ≤ 1 ∧ ([mkItem "u", mkItem "v"] : List Item) ≠ [] ∧
    (select_next_result [mkItem "u", mkItem "v"] { idx := 1, sid := some "v" }
        = { idx := 0, sid := some "u" } ∧
      select_previous_result [mkItem "u", mkItem "v"] { idx := 1, sid := some "v" }
        = { idx := 0, sid := some "u" }) := by
  refine ⟨by decide, by decide, ?_⟩
  have h := c5_selection_cycling.2.1 [mkItem "u", mkItem "v"]
    { idx := 1, sid := some "v" } (by decide) (by decide)
  exact ⟨h.1.trans (by decide), h.2.trans (by decide)⟩

/-- C10: with a cleared selection (index -1, no id) and non-empty
results, selectNext selects index 0 with the first item's id and
selectPrevious selects the last index with the last item's id, rather
than applying the modular step. -/
theorem c10_cleared_selection_endpoints (results : List Item) (sel : Selected)
    (h1 : sel.idx = -1) (h2 : results ≠ []) :
    select_next_result results sel = { idx := 0, sid := results.head?.map Item.id } ∧
    select_previous_result results sel =
      { idx := (results.length : Int) - 1, sid := results.getLast?.map Item.id } := by
  have hlen : results.length ≠ 0 := fun hh => h2 (List.length_eq_zero.mp hh)
  constructor
  · simp only [select_next_result, hlen, h1, if_false, if_pos, if_true]
    rw [List.get?_zero]
  · simp only [select_previous_result, hlen, h1, if_false, if_pos, if_true]
    rw [List.getLast?_eq_get? results]

/-- C10 witness: the endpoints at a concrete two-item result list. -/
theorem c10_cleared_selection_endpoints_witness :
    ((⟨-1, none⟩ : Selected).idx = -1) ∧ ([mkItem "u", mkItem "v"] : List Item) ≠ [] ∧
    (select_next_result [mkItem "u", mkItem "v"] ⟨-1, none⟩
        = { idx := 0, sid := some "u" } ∧
      select_previous_result [mkItem "u", mkItem "v"] ⟨-1, none⟩
        = { idx := 1, sid := some "v" }) := by
  refine ⟨rfl, by decide, ?_⟩
  have h := c10_cleared_selection_endpoints [mkItem "u", mkItem "v"] ⟨-1, none⟩ rfl (by decide)
  exact ⟨h.1.trans (by decide), h.2.trans (by decide)⟩

/-- C1 counterexample: with mode prefixes registered as
default ('') then commands ('>'), typing ">foo" does NOT switch to
commands and does not search "foo" — the scan takes the first
registered mode whose prefix matches, and the empty default prefix
matches every text. -/
theorem c1_mode_switch_counterexample :
    (on_input [⟨"default", ""⟩, ⟨"commands", ">"⟩] "default" "" 150 ">foo").mode ≠ "commands" ∧
    (on_input [⟨"default", ""⟩, ⟨"commands", ">"⟩] "default" "" 150 ">foo").effect
      ≠ InputEffect.searchNow "foo" ∧
    on_input [⟨"default", ""⟩, ⟨"commands", ">"⟩] "default" "" 150 ">foo"
      = { searchText := ">foo", mode := "default", effect := InputEffect.searchLater ">foo" } := by
  refine ⟨by decide, by decide, by decide⟩

/-- C1 (amended): when the text no longer starts with the active
prefix, the controller scans the modes in registration order and
switches to the first whose prefix matches, forcing an immediate search
of the text minus that mode's prefix; when no prefix matches, the
active mode is kept and the text minus the active prefix is searched
(immediately or debounced) — results are not cleared.  Typing ">foo"
with prefixes default ('')/commands ('>') switches to commands only
when commands is registered first; registered after the default mode,
the empty default prefix wins the scan and the palette stays in
default, searching ">foo". -/
theorem c1_mode_switch_amended :
    (∀ (modes : List ModePre) (activeMode activePfx : String) (debounce : Int)
        (text : String) (m : ModePre),
      strStartsWith text activePfx = false →
      modes.find? (fun mm => strStartsWith text mm.pfx) = some m →
      modes.find? (fun mm => mm.mode == m.mode) = some m →
      m.mode ≠ activeMode →
      on_input modes activeMode activePfx debounce text =
        { searchText := text, mode := m.mode,
          effect := InputEffect.searchNow (strDrop text m.pfx.length) }) ∧
    (∀ (modes : List ModePre) (activeMode activePfx : String) (debounce : Int)
        (text : String),
      strStartsWith text activePfx = false →
      modes.find? (fun mm => strStartsWith text mm.pfx) = none →
      on_input modes activeMode activePfx debounce text =
        { searchText := text, mode := activeMode,
          effect := if debounce ≤ 0 then InputEffect.searchNow (strDrop text activePfx.length)
                    else InputEffect.searchLater (strDrop text activePfx.length) }) ∧
    (on_input [⟨"commands", ">"⟩, ⟨"default", ""⟩] "default" "" 150 ">foo"
      = { searchText := ">foo", mode := "commands", effect := InputEffect.searchNow "foo" }) ∧
    (on_input [⟨"default", ""⟩, ⟨"commands", ">"⟩] "default" "" 150 ">foo").mode = "default" := by
  refine ⟨?_, ?_, by decide, by decide⟩
  · intro modes activeMode activePfx debounce text m h hfind hname hne
    simp only [on_input, h, Bool.not_false, Bool.true_or, if_true, hfind, hname,
      ne_eq, hne, not_false_eq_true, if_pos]
  · intro modes activeMode activePfx debounce text h hfind
    simp only [on_input, h, Bool.not_false, Bool.true_or, if_true, hfind,
      ne_eq, not_true_eq_false, if_neg, ite_not, if_false]

/-- C1 witness: the scan-and-switch branch applied concretely — with the
commands mode first and an active default mode whose prefix the text
">go" does not extend beyond... (the active prefix "p" does not match). -/
theorem c1_mode_switch_witness :
    strStartsWith ">go" "p" = false ∧
    ([⟨"commands", ">"⟩, ⟨"default", ""⟩] : List ModePre).find?
      (fun mm => strStartsWith ">go" mm.pfx) = some ⟨"commands", ">"⟩ ∧
    ([⟨"commands", ">"⟩, ⟨"default", ""⟩] : List ModePre).find?
      (fun mm => mm.mode == "commands") = some ⟨"commands", ">"⟩ ∧
    ("commands" ≠ "default") ∧
    on_input [⟨"commands", ">"⟩, ⟨"default", ""⟩] "default" "p" 150 ">go"
      = { searchText := ">go", mode := "commands", effect := InputEffect.searchNow "go" } := by
  refine ⟨by decide, by decide, by decide, by decide, ?_⟩
  have h := c1_mode_switch_amended.1 [⟨"commands", ">"⟩, ⟨"default", ""⟩]
    "default" "p" 150 ">go" ⟨"commands", ">"⟩ (by decide) (by decide) (by decide) (by decide)
  exact h.trans (by decide)

/-- C2 counterexample: registering an item with id x into mode m1 and a
distinct item with the same id into mode m2 succeeds, leaving two
distinct registered items that share an id across modes — _register_item
only scans the target mode's own rawAll for duplicates. -/
theorem c2_cross_mode_unique_counterexample :
    (findMode c2pal.modes "m1").map ModeState.rawAll = some [c2reg1] ∧
    (findMode c2pal.modes "m2").map ModeState.rawAll = some [c2reg2] ∧
    c2reg1.id = c2reg2.id ∧
    c2reg1 ≠ c2reg2 := by
  refine ⟨by decide, by decide, by decide, by decide⟩

/-- C3: registering an item whose id already exists in the mode, with
override=false and silent=false, throws and leaves the mode state and
shortcut registry exactly as they were; the message names the
conflicting id — but the thrown error is the generic palette error
(the base class whose runtime name is HyperPaletteError), not the
DuplicatedIdError subclass errors.js declares for this situation (the
hyperPalette constructor below is the base class, the unused
duplicatedId constructor the subclass).  The source message's trailing
interpolation of the two item objects is elided. -/
theorem c3_duplicate_register_behavior :
    register_item c3sort c3mode [] [{ mkItem "a" with name := "other" }] false false
      = ((c3mode, []), Except.error
          (PaletteErr.hyperPalette "Item with id a already exists in the palette")) := by
  decide

/-- C4 counterexample: with a caller-supplied custom sorter, a
reachable mode state exists where registerItem of a fresh item followed
by its reversal callback does not restore rawItemsSorted: the sorted
view ends as [b, a] where it was [a, b] before the call. -/
theorem c4_round_trip_counterexample :
    c4post.2 = Except.ok [mkItem "c"] ∧
    c4pre.rawAllSorted = [mkItem "a", mkItem "b"] ∧
    (register_item_cleanup c4post.1.1 c4post.1.2 [mkItem "c"]).1.rawAllSorted
      = [mkItem "b", mkItem "a"] ∧
    (register_item_cleanup c4post.1.1 c4post.1.2 [mkItem "c"]).1.rawAllSorted
      ≠ c4pre.rawAllSorted := by
  refine ⟨by decide, by decide, by decide, by decide⟩


theorem resolveHistory_eq_filterMap (raw : List Item) (h : List String) :
    resolveHistory raw h = h.filterMap (lookupById raw) := by
  induction h with
  | nil => rfl
  | cons i rest ih =>
    simp only [resolveHistory, List.filterMap_cons]
    cases hl : lookupById raw i <;> simp [hl, ih]

theorem emptyQueryResults_set_lastInput (m : ModeState) (x : String) :
    emptyQueryResults { m with lastInput := x } = emptyQueryResults m := rfl

theorem emptyQueryResults_ok (m : ModeState) (hv : validEmpty m.emptyMode) :
    ∃ r, emptyQueryResults m = Except.ok r := by
  rcases hv with h | h | h <;> simp [emptyQueryResults, h, NO_RESULTS_MODE_ALL,
    NO_RESULTS_MODE_HISTORY, NO_RESULTS_MODE_NONE]

theorem search_and_update_empty_ok (sf : String → List Item) (ms : ModeSort)
    (s : PaletteState) (results : List Item)
    (h : emptyQueryResults s.active = Except.ok results) :
    ∃ s', search_and_update sf ms s "" = Except.ok s' ∧
      s'.active = { s.active with resultsList := results } ∧
      s'.isOpen = s.isOpen ∧ s'.searchText = s.searchText ∧
      s'.closeAction = s.closeAction ∧ s'.errorSlot = s.errorSlot := by
  cases results with
  | nil =>
    exact ⟨{ s with
      active := { s.active with resultsList := [] }
      selected := { idx := -1, sid := none } },
      by simp [search_and_update, h], rfl, rfl, rfl, rfl, rfl⟩
  | cons r rest =>
    exact ⟨{ s with
      active := { s.active with resultsList := r :: rest }
      selected := { idx := 0, sid := some r.id } },
      by simp [search_and_update, h], rfl, rfl, rfl, rfl, rfl⟩

/-- C6: on an empty (post-prefix-stripping) query, emptyMode ALL yields
rawItemsSorted verbatim; HISTORY yields the history ids most-recent-first
resolved against rawItems, silently skipping missing ids; NONE yields
nothing; any other emptyMode value fails with the invalid-config error. -/
theorem c6_empty_query_policy (searchFn : String → List Item) (ms : ModeSort)
    (s : PaletteState) :
    (s.active.emptyMode = NO_RESULTS_MODE_ALL →
      ∃ s', search_and_update searchFn ms s "" = Except.ok s' ∧
        s'.active.resultsList = s.active.rawAllSorted) ∧
    (s.active.emptyMode = NO_RESULTS_MODE_HISTORY →
      ∃ s', search_and_update searchFn ms s "" = Except.ok s' ∧
        s'.active.resultsList = s.active.history.filterMap (lookupById s.active.rawAll)) ∧
    (s.active.emptyMode = NO_RESULTS_MODE_NONE →
      ∃ s', search_and_update searchFn ms s "" = Except.ok s' ∧
        s'.active.resultsList = []) ∧
    (s.active.emptyMode ≠ NO_RESULTS_MODE_ALL →
     s.active.emptyMode ≠ NO_RESULTS_MODE_HISTORY →
     s.active.emptyMode ≠ NO_RESULTS_MODE_NONE →
      search_and_update searchFn ms s "" = Except.error
        (PaletteErr.hyperPalette ("Invalid empty mode: " ++ s.active.emptyMode))) := by
  refine ⟨?_, ?_, ?_, ?_⟩
  · intro h
    have he : emptyQueryResults s.active = Except.ok s.active.rawAllSorted := by
      simp [emptyQueryResults, h]
    obtain ⟨s', h1, h2, -⟩ := search_and_update_empty_ok searchFn ms s _ he
    exact ⟨s', h1, by rw [h2]⟩
  · intro h
    have he : emptyQueryResults s.active
        = Except.ok (resolveHistory s.active.rawAll s.active.history) := by
      simp [emptyQueryResults, h, NO_RESULTS_MODE_ALL, NO_RESULTS_MODE_HISTORY]
    obtain ⟨s', h1, h2, -⟩ := search_and_update_empty_ok searchFn ms s _ he
    exact ⟨s', h1, by rw [h2]; exact resolveHistory_eq_filterMap _ _⟩
  · intro h
    have he : emptyQueryResults s.active = Except.ok [] := by
      simp [emptyQueryResults, h, NO_RESULTS_MODE_ALL, NO_RESULTS_MODE_HISTORY,
        NO_RESULTS_MODE_NONE]
    obtain ⟨s', h1, h2, -⟩ := search_and_update_empty_ok searchFn ms s _ he
    exact ⟨s', h1, by rw [h2]⟩
  · intro h1 h2 h3
    simp [search_and_update, emptyQueryResults, h1, h2, h3]

theorem resolve_close_action_spec (sf : String → List Item) (ms : ModeSort)
    (s : PaletteState) (hv : validEmpty s.active.emptyMode) :
    ∃ s', resolve_close_action sf ms s = Except.ok s' ∧
      s'.active.mode = s.active.mode ∧
      s'.active.pfx = s.active.pfx ∧
      s'.active.emptyMode = s.active.emptyMode ∧
      s'.active.rawAll = s.active.rawAll ∧
      s'.active.rawAllSorted = s.active.rawAllSorted ∧
      s'.active.history = s.active.history ∧
      s'.active.current = s.active.current ∧
      s'.active.hasOnNavigation = s.active.hasOnNavigation ∧
      s'.active.hasModeOnError = s.active.hasModeOnError ∧
      s'.errorSlot = s.errorSlot ∧
      s'.closeAction = s.closeAction ∧
      ((s.closeAction = CloseAction.keepClose ∨ s.closeAction = CloseAction.resetClose) →
        s'.isOpen = true) ∧
      ((s.closeAction = CloseAction.noAction ∨ s.closeAction = CloseAction.reset) →
        s'.isOpen = s.isOpen) ∧
      ((s.closeAction = CloseAction.reset ∨ s.closeAction = CloseAction.resetClose) →
        s'.searchText = s.active.pfx ∧
        emptyQueryResults s.active = Except.ok s'.active.resultsList) ∧
      ((s.closeAction = CloseAction.noAction ∨ s.closeAction = CloseAction.keepClose) →
        s'.searchText = s.searchText ∧ s'.active.resultsList = s.active.resultsList) := by
  obtain ⟨o, stx, ca, es, sel, act⟩ := s
  obtain ⟨r, hr⟩ := emptyQueryResults_ok act hv
  have hr' : emptyQueryResults { act with lastInput := stx } = Except.ok r := hr
  rcases ca with _ | _ | _ | _
  case noAction =>
    refine ⟨PaletteState.mk o stx CloseAction.noAction es sel { act with lastInput := stx },
      ?_, ?_, ?_, ?_, ?_, ?_, ?_, ?_, ?_, ?_, ?_, ?_, ?_, ?_, ?_, ?_⟩
    · simp [resolve_close_action]
    all_goals simp_all
  case reset =>
    obtain ⟨s₁, h1, h2, h3, h4, h5, h6⟩ := search_and_update_empty_ok sf ms
      { isOpen := o, searchText := act.pfx, closeAction := CloseAction.reset,
        errorSlot := es, selected := sel,
        active := { act with lastInput := stx } } r hr'
    refine ⟨s₁, ?_, ?_, ?_, ?_, ?_, ?_, ?_, ?_, ?_, ?_, ?_, ?_, ?_, ?_, ?_, ?_⟩
    · simp only [resolve_close_action]
      simp [h1]
    all_goals simp_all [hr]
  case keepClose =>
    rcases o with _ | _
    · refine ⟨PaletteState.mk true stx CloseAction.keepClose es sel
          { act with lastInput := stx },
        ?_, ?_, ?_, ?_, ?_, ?_, ?_, ?_, ?_, ?_, ?_, ?_, ?_, ?_, ?_, ?_⟩
      · simp [resolve_close_action]
      all_goals simp_all
    · refine ⟨PaletteState.mk true stx CloseAction.keepClose es sel
          { act with lastInput := stx },
        ?_, ?_, ?_, ?_, ?_, ?_, ?_, ?_, ?_, ?_, ?_, ?_, ?_, ?_, ?_, ?_⟩
      · simp [resolve_close_action]
      all_goals simp_all
  case resetClose =>
    obtain ⟨s₁, h1, h2, h3, h4, h5, h6⟩ := search_and_update_empty_ok sf ms
      { isOpen := o, searchText := act.pfx, closeAction := CloseAction.resetClose,
        errorSlot := es, selected := sel,
        active := { act with lastInput := stx } } r hr'
    rcases ho : s₁.isOpen with _ | _
    · refine ⟨{ s₁ with isOpen := true }, ?_, ?_, ?_, ?_, ?_, ?_, ?_, ?_, ?_, ?_,
        ?_, ?_, ?_, ?_, ?_, ?_⟩
      · simp only [resolve_close_action]
        simp [h1, ho]
      all_goals simp_all [hr]
    · refine ⟨s₁, ?_, ?_, ?_, ?_, ?_, ?_, ?_, ?_, ?_, ?_, ?_, ?_, ?_, ?_, ?_, ?_⟩
      · simp only [resolve_close_action]
        simp [h1, ho]
      all_goals simp_all [hr]

/-- C7: close resolution with closeAction KEEP_CLOSE or RESET_CLOSE
forces open to true — setting it only when it was false, and leaving it
unchanged when it was already true; with RESET or RESET_CLOSE it resets
the input to the mode's prefix and re-runs the empty-query pipeline;
the mode's current item is never modified by close resolution. -/
theorem c7_close_action (sf : String → List Item) (ms : ModeSort)
    (s : PaletteState) (hv : validEmpty s.active.emptyMode) :
    ∃ s', resolve_close_action sf ms s = Except.ok s' ∧
      ((s.closeAction = CloseAction.keepClose ∨ s.closeAction = CloseAction.resetClose) →
        s'.isOpen = true ∧ (s.isOpen = true → s'.isOpen = s.isOpen)) ∧
      ((s.closeAction = CloseAction.noAction ∨ s.closeAction = CloseAction.reset) →
        s'.isOpen = s.isOpen) ∧
      ((s.closeAction = CloseAction.reset ∨ s.closeAction = CloseAction.resetClose) →
        s'.searchText = s.active.pfx ∧
        emptyQueryResults s.active = Except.ok s'.active.resultsList) ∧
      s'.active.current = s.active.current := by
  obtain ⟨s', h0, hmode, hpfx, hem, hraw, hsorted, hhist, hcur, hnav, hmerr,
    herr, hclose, hopen1, hopen2, hreset, hnoreset⟩ := resolve_close_action_spec sf ms s hv
  refine ⟨s', h0, ?_, hopen2, hreset, hcur⟩
  intro h
  exact ⟨hopen1 h, fun ho => (hopen1 h).trans ho.symm⟩

/-- C7 witness: close resolution at a concrete RESET_CLOSE palette with
emptyMode NONE. -/
theorem c7_close_action_witness :
    validEmpty c7demo.active.emptyMode ∧
    (∃ s', resolve_close_action demoSearchFn demoMsort c7demo = Except.ok s' ∧
      ((c7demo.closeAction = CloseAction.keepClose ∨ c7demo.closeAction = CloseAction.resetClose) →
        s'.isOpen = true ∧ (c7demo.isOpen = true → s'.isOpen = c7demo.isOpen)) ∧
      ((c7demo.closeAction = CloseAction.noAction ∨ c7demo.closeAction = CloseAction.reset) →
        s'.isOpen = c7demo.isOpen) ∧
      ((c7demo.closeAction = CloseAction.reset ∨ c7demo.closeAction = CloseAction.resetClose) →
        s'.searchText = c7demo.active.pfx ∧
        emptyQueryResults c7demo.active = Except.ok s'.active.resultsList) ∧
      s'.active.current = c7demo.active.current) :=
  ⟨Or.inr (Or.inr rfl),
    c7_close_action demoSearchFn demoMsort c7demo (Or.inr (Or.inr rfl))⟩

theorem emptyQueryResults_history (m : ModeState) (h : m.emptyMode = NO_RESULTS_MODE_HISTORY) :
    emptyQueryResults m = Except.ok (resolveHistory m.rawAll m.history) := by
  simp [emptyQueryResults, h, NO_RESULTS_MODE_ALL, NO_RESULTS_MODE_HISTORY]

theorem cond_close_spec (sf : String → List Item) (ms : ModeSort) (s₀ : PaletteState)
    (c : Prop) [Decidable c] (hv : validEmpty s₀.active.emptyMode) :
    ∃ s₁, (if c then resolve_close_action sf ms s₀ else Except.ok s₀) = Except.ok s₁ ∧
      s₁.active.mode = s₀.active.mode ∧
      s₁.active.pfx = s₀.active.pfx ∧
      s₁.active.emptyMode = s₀.active.emptyMode ∧
      s₁.active.rawAll = s₀.active.rawAll ∧
      s₁.active.history = s₀.active.history ∧
      s₁.active.current = s₀.active.current ∧
      s₁.errorSlot = s₀.errorSlot ∧
      s₁.closeAction = s₀.closeAction ∧
      s₁.active.hasOnNavigation = s₀.active.hasOnNavigation ∧
      s₁.active.hasModeOnError = s₀.active.hasModeOnError ∧
      (c → (s₀.closeAction = CloseAction.reset ∨ s₀.closeAction = CloseAction.resetClose) →
        emptyQueryResults s₀.active = Except.ok s₁.active.resultsList) := by
  by_cases hc : c
  · obtain ⟨s', h0, hmode, hpfx, hem, hraw, hsorted, hhist, hcur, hnav, hmerr, herr,
      hclose, _, _, hreset, _⟩ := resolve_close_action_spec sf ms s₀ hv
    exact ⟨s', by simp [hc, h0], hmode, hpfx, hem, hraw, hhist, hcur, herr, hclose,
      hnav, hmerr, fun _ hca => (hreset hca).2⟩
  · exact ⟨s₀, by simp [hc], rfl, rfl, rfl, rfl, rfl, rfl, rfl, rfl, rfl, rfl,
      fun h => absurd h hc⟩

/-- C8: for an Actionable resolution not cancelled by onRequest, in both
the success path and the non-early-return error path the item's id is
pushed to the front of the mode's history before the success-close
branch is evaluated — observable through a HISTORY-emptyMode reset,
whose recomputed results start with the just-run item — and current is
cleared at the end of both paths. -/
theorem c8_actionable_history_current (sf : String → List Item) (ms : ModeSort)
    (s : PaletteState) (item : Item) (source : Source)
    (hv : validEmpty s.active.emptyMode) :
    (∃ s', resolve_actionable sf ms s item source false (Except.ok ()) = Except.ok (s', false) ∧
      s'.active.history = item.id :: s.active.history ∧
      s'.active.current = none ∧
      (s.active.emptyMode = NO_RESULTS_MODE_HISTORY →
       (s.closeAction = CloseAction.reset ∨ s.closeAction = CloseAction.resetClose) →
       item.closeOn = CloseOn.onSuccess →
       ∀ j, lookupById s.active.rawAll item.id = some j →
         s'.active.resultsList.head? = some j)) ∧
    (∀ e, item.closeOn ≠ CloseOn.onError → item.closeOn ≠ CloseOn.always →
      ∃ s' fired, resolve_actionable sf ms s item source false (Except.error e)
          = Except.ok (s', fired) ∧
        s'.active.history = item.id :: s.active.history ∧
        s'.active.current = none) := by
  have hv₀ : validEmpty (setCurrent s (some item)).active.emptyMode := hv
  obtain ⟨s₁, e1, m1, p1, em1, r1, h1, c1, er1, ca1, n1, me1, _⟩ :=
    cond_close_spec sf ms (setCurrent s (some item)) (item.closeOn = CloseOn.onTrigger) hv₀
  constructor
  · -- success path
    have hv₃ : validEmpty (pushHistoryFront { s₁ with errorSlot := none } item.id).active.emptyMode := by
      simp only [pushHistoryFront]
      simpa [pushHistoryFront, em1] using hv₀
    obtain ⟨s₄, e4, m4, p4, em4, r4, h4, c4, er4, ca4, n4, me4, res4⟩ :=
      cond_close_spec sf ms (pushHistoryFront { s₁ with errorSlot := none } item.id)
        (item.closeOn = CloseOn.onSuccess ∨ item.closeOn = CloseOn.always) hv₃
    refine ⟨setCurrent s₄ none, ?_, ?_, rfl, ?_⟩
    · simp only [resolve_actionable, e1]
      simp [e4]
    · have hh : (pushHistoryFront { s₁ with errorSlot := none } item.id).active.history
          = item.id :: s₁.active.history := rfl
      rw [show (setCurrent s₄ none).active.history = s₄.active.history from rfl, h4, hh, h1]
      rfl
    · intro hH hca hS j hlook
      have hres := res4 (Or.inl hS) (by
        rw [show (pushHistoryFront { s₁ with errorSlot := none } item.id).closeAction
            = s₁.closeAction from rfl, ca1]
        exact hca)
      have hem3 : (pushHistoryFront { s₁ with errorSlot := none } item.id).active.emptyMode
          = NO_RESULTS_MODE_HISTORY := by
        rw [show (pushHistoryFront { s₁ with errorSlot := none } item.id).active.emptyMode
            = s₁.active.emptyMode from rfl, em1]
        exact hH
      rw [emptyQueryResults_history _ hem3] at hres
      have hraw3 : (pushHistoryFront { s₁ with errorSlot := none } item.id).active.rawAll
          = s.active.rawAll := by
        rw [show (pushHistoryFront { s₁ with errorSlot := none } item.id).active.rawAll
            = s₁.active.rawAll from rfl, r1]
        rfl
      have hhist3 : (pushHistoryFront { s₁ with errorSlot := none } item.id).active.history
          = item.id :: s.active.history := by
        rw [show (pushHistoryFront { s₁ with errorSlot := none } item.id).active.history
            = item.id :: s₁.active.history from rfl, h1]
        rfl
      rw [hraw3, hhist3] at hres
      have : resolveHistory s.active.rawAll (item.id :: s.active.history)
          = j :: resolveHistory s.active.rawAll s.active.history := by
        simp [resolveHistory, hlook]
      rw [this] at hres
      have hres' : s₄.active.resultsList
          = j :: resolveHistory s.active.rawAll s.active.history := by
        exact (Except.ok.inj hres).symm
      rw [show (setCurrent s₄ none).active.resultsList = s₄.active.resultsList from rfl, hres']
      rfl
  · -- non-early-return error path
    intro e hne1 hne2
    have hv₃ : validEmpty (pushHistoryFront
        { s₁ with errorSlot := some (ErrVal.mk e item source s₁.active.mode) }
        item.id).active.emptyMode := by
      simp only [pushHistoryFront]
      simpa [pushHistoryFront, em1] using hv₀
    obtain ⟨s₄, e4, m4, p4, em4, r4, h4, c4, er4, ca4, n4, me4, res4⟩ :=
      cond_close_spec sf ms (pushHistoryFront
        { s₁ with errorSlot := some (ErrVal.mk e item source s₁.active.mode) } item.id)
        (item.closeOn = CloseOn.onSuccess ∨ item.closeOn = CloseOn.always) hv₃
    refine ⟨setCurrent s₄ none, item.hasOnError, ?_, ?_, rfl⟩
    · have hno : ¬(item.closeOn = CloseOn.onError ∨ item.closeOn = CloseOn.always) := by
        rintro (h | h)
        · exact hne1 h
        · exact hne2 h
      simp only [resolve_actionable, e1]
      simp [hno, e4]
    · rw [show (setCurrent s₄ none).active.history = s₄.active.history from rfl, h4]
      rw [show (pushHistoryFront { s₁ with
          errorSlot := some (ErrVal.mk e item source s₁.active.mode) } item.id).active.history
          = item.id :: s₁.active.history from rfl, h1]
      rfl

/-- C8 witness: a concrete ON_SUCCESS actionable under a RESET close
action and HISTORY emptyMode. -/
theorem c8_actionable_history_current_witness :
    validEmpty c8demo.active.emptyMode ∧
    ((∃ s', resolve_actionable demoSearchFn demoMsort c8demo c8item Source.submit false
        (Except.ok ()) = Except.ok (s', false) ∧
      s'.active.history = c8item.id :: c8demo.active.history ∧
      s'.active.current = none ∧
      (c8demo.active.emptyMode = NO_RESULTS_MODE_HISTORY →
       (c8demo.closeAction = CloseAction.reset ∨ c8demo.closeAction = CloseAction.resetClose) →
       c8item.closeOn = CloseOn.onSuccess →
       ∀ j, lookupById c8demo.active.rawAll c8item.id = some j →
         s'.active.resultsList.head? = some j)) ∧
    (∀ e, c8item.closeOn ≠ CloseOn.onError → c8item.closeOn ≠ CloseOn.always →
      ∃ s' fired, resolve_actionable demoSearchFn demoMsort c8demo c8item Source.submit false
          (Except.error e) = Except.ok (s', fired) ∧
        s'.active.history = c8item.id :: c8demo.active.history ∧
        s'.active.current = none)) :=
  ⟨Or.inr (Or.inl rfl),
    c8_actionable_history_current demoSearchFn demoMsort c8demo c8item Source.submit
      (Or.inr (Or.inl rfl))⟩

/-- C9: an error thrown by the core hook (onAction for Actionable, the
selected navigation hook for Navigable) is captured into the shared
error observable as the error/item/source/mode record, forwarded to the
item's (Actionable) or mode's (Navigable) onError handler exactly when
one exists — fire-and-forget in the source, so only its invocation is
modelled — and never re-thrown to the resolution caller; a successful
run clears the error observable. -/
theorem c9_hook_error_capture (sf : String → List Item) (ms : ModeSort)
    (s : PaletteState) (item : Item) (source : Source) (e : String)
    (hv : validEmpty s.active.emptyMode) :
    (∃ s', resolve_actionable sf ms s item source false (Except.error e)
        = Except.ok (s', item.hasOnError) ∧
      s'.errorSlot = some (ErrVal.mk e item source s.active.mode)) ∧
    (∃ s', resolve_actionable sf ms s item source false (Except.ok ())
        = Except.ok (s', false) ∧
      s'.errorSlot = none) ∧
    (∀ oNav oExt oLoc, navChosen s item oNav oExt oLoc = Except.error e →
      ∃ s', resolve_navigable sf ms s item source oNav oExt oLoc
          = Except.ok (s', s.active.hasModeOnError) ∧
        s'.errorSlot = some (ErrVal.mk e item source s.active.mode)) ∧
    (∀ oNav oExt oLoc, navChosen s item oNav oExt oLoc = Except.ok () →
      ∃ s', resolve_navigable sf ms s item source oNav oExt oLoc
          = Except.ok (s', false) ∧
        s'.errorSlot = none) := by
  have hv₀ : validEmpty (setCurrent s (some item)).active.emptyMode := hv
  obtain ⟨s₁, e1, m1, p1, em1, r1, h1, c1, er1, ca1, n1, me1, _⟩ :=
    cond_close_spec sf ms (setCurrent s (some item)) (item.closeOn = CloseOn.onTrigger) hv₀
  have hmode1 : s₁.active.mode = s.active.mode := m1
  have hnav1 : ∀ oNav oExt oLoc, navChosen s₁ item oNav oExt oLoc
      = navChosen s item oNav oExt oLoc := by
    intro oNav oExt oLoc
    simp only [navChosen, n1]
    rfl
  refine ⟨?_, ?_, ?_, ?_⟩
  · -- Actionable, hook throws
    by_cases hEA : item.closeOn = CloseOn.onError ∨ item.closeOn = CloseOn.always
    · have hv₂ : validEmpty ({ s₁ with
          errorSlot := some (ErrVal.mk e item source s₁.active.mode) }).active.emptyMode := by
        simpa [pushHistoryFront, em1] using hv₀
      obtain ⟨s₃, e3, _, _, _, _, _, _, _, _, _, her3, _, _, _, _, _⟩ :=
        resolve_close_action_spec sf ms
          { s₁ with errorSlot := some (ErrVal.mk e item source s₁.active.mode) } hv₂
      refine ⟨pushHistoryFront (setCurrent s₃ none) item.id, ?_, ?_⟩
      · simp only [resolve_actionable, e1]
        simp [hEA, e3]
      · rw [show (pushHistoryFront (setCurrent s₃ none) item.id).errorSlot
            = s₃.errorSlot from rfl, her3]
        simp [hmode1]
    · have hv₃ : validEmpty (pushHistoryFront { s₁ with
          errorSlot := some (ErrVal.mk e item source s₁.active.mode) } item.id).active.emptyMode := by
        simpa [pushHistoryFront, em1] using hv₀
      obtain ⟨s₄, e4, _, _, _, _, _, _, er4, _, _, _, _⟩ :=
        cond_close_spec sf ms (pushHistoryFront { s₁ with
          errorSlot := some (ErrVal.mk e item source s₁.active.mode) } item.id)
          (item.closeOn = CloseOn.onSuccess ∨ item.closeOn = CloseOn.always) hv₃
      refine ⟨setCurrent s₄ none, ?_, ?_⟩
      · simp only [resolve_actionable, e1]
        simp [hEA, e4]
      · rw [show (setCurrent s₄ none).errorSlot = s₄.errorSlot from rfl, er4]
        rw [show (pushHistoryFront { s₁ with
          errorSlot := some (ErrVal.mk e item source s₁.active.mode) } item.id).errorSlot
            = some (ErrVal.mk e item source s₁.active.mode) from rfl]
        simp [hmode1]
  · -- Actionable, hook succeeds
    have hv₃ : validEmpty (pushHistoryFront { s₁ with errorSlot := none } item.id).active.emptyMode := by
      simpa [pushHistoryFront, em1] using hv₀
    obtain ⟨s₄, e4, _, _, _, _, _, _, er4, _, _, _, _⟩ :=
      cond_close_spec sf ms (pushHistoryFront { s₁ with errorSlot := none } item.id)
        (item.closeOn = CloseOn.onSuccess ∨ item.closeOn = CloseOn.always) hv₃
    refine ⟨setCurrent s₄ none, ?_, ?_⟩
    · simp only [resolve_actionable, e1]
      simp [e4]
    · rw [show (setCurrent s₄ none).errorSlot = s₄.errorSlot from rfl, er4]
      rfl
  · -- Navigable, hook throws
    intro oNav oExt oLoc hch
    have hch1 : navChosen s₁ item oNav oExt oLoc = Except.error e := by
      rw [hnav1]; exact hch
    by_cases hEA : item.closeOn = CloseOn.onError ∨ item.closeOn = CloseOn.always
    · have hv₂ : validEmpty ({ s₁ with
          errorSlot := some (ErrVal.mk e item source s₁.active.mode) }).active.emptyMode := by
        simpa [pushHistoryFront, em1] using hv₀
      obtain ⟨s₃, e3, _, _, _, _, _, _, _, _, _, her3, _, _, _, _, _⟩ :=
        resolve_close_action_spec sf ms
          { s₁ with errorSlot := some (ErrVal.mk e item source s₁.active.mode) } hv₂
      refine ⟨pushHistoryFront (setCurrent s₃ none) item.id, ?_, ?_⟩
      · simp only [resolve_navigable, e1]
        simp [hch1, hEA, e3, me1, setCurrent]
      · rw [show (pushHistoryFront (setCurrent s₃ none) item.id).errorSlot
            = s₃.errorSlot from rfl, her3]
        simp [hmode1]
    · by_cases hS2 : item.closeOn = CloseOn.onSuccess ∨ item.closeOn = CloseOn.always
      · have hv₃ : validEmpty (pushHistoryFront { s₁ with
            errorSlot := some (ErrVal.mk e item source s₁.active.mode) }
            item.id).active.emptyMode := by
          simpa [pushHistoryFront, em1] using hv₀
        obtain ⟨s₄, e4, _, _, _, _, _, _, _, _, _, her4, _, _, _, _, _⟩ :=
          resolve_close_action_spec sf ms (pushHistoryFront { s₁ with
            errorSlot := some (ErrVal.mk e item source s₁.active.mode) } item.id) hv₃
        refine ⟨setCurrent s₄ none, ?_, ?_⟩
        · simp only [resolve_navigable, e1]
          simp [hch1, hEA, hS2, e4, me1, setCurrent]
        · rw [show (setCurrent s₄ none).errorSlot = s₄.errorSlot from rfl, her4]
          rw [show (pushHistoryFront { s₁ with
            errorSlot := some (ErrVal.mk e item source s₁.active.mode) } item.id).errorSlot
              = some (ErrVal.mk e item source s₁.active.mode) from rfl]
          simp [hmode1]
      · refine ⟨pushHistoryFront { s₁ with
          errorSlot := some (ErrVal.mk e item source s₁.active.mode) } item.id, ?_, ?_⟩
        · simp only [resolve_navigable, e1]
          simp [hch1, hEA, hS2, me1, setCurrent]
        · rw [show (pushHistoryFront { s₁ with
            errorSlot := some (ErrVal.mk e item source s₁.active.mode) } item.id).errorSlot
              = some (ErrVal.mk e item source s₁.active.mode) from rfl]
          simp [hmode1]
  · -- Navigable, hook succeeds
    intro oNav oExt oLoc hch
    have hch1 : navChosen s₁ item oNav oExt oLoc = Except.ok () := by
      rw [hnav1]; exact hch
    by_cases hS : item.closeOn = CloseOn.onSuccess ∨ item.closeOn = CloseOn.always
    · have hv₃ : validEmpty (pushHistoryFront { s₁ with errorSlot := none } item.id).active.emptyMode := by
        simpa [pushHistoryFront, em1] using hv₀
      obtain ⟨s₄, e4, _, _, _, _, _, _, _, _, _, her4, _, _, _, _, _⟩ :=
        resolve_close_action_spec sf ms (pushHistoryFront { s₁ with errorSlot := none } item.id) hv₃
      refine ⟨setCurrent s₄ none, ?_, ?_⟩
      · simp only [resolve_navigable, e1]
        simp [hch1, hS, e4]
      · rw [show (setCurrent s₄ none).errorSlot = s₄.errorSlot from rfl, her4]
        rfl
    · refine ⟨pushHistoryFront { s₁ with errorSlot := none } item.id, ?_, rfl⟩
      simp only [resolve_navigable, e1]
      simp [hch1, hS]

/-- C9 witness: error capture and success clearing at a concrete
palette, for both resolvers. -/
theorem c9_hook_error_capture_witness :
    validEmpty c9demo.active.emptyMode ∧
    ((∃ s', resolve_actionable demoSearchFn demoMsort c9demo c9item Source.click false
        (Except.error "boom") = Except.ok (s', c9item.hasOnError) ∧
      s'.errorSlot = some (ErrVal.mk "boom" c9item Source.click c9demo.active.mode)) ∧
    (∃ s', resolve_actionable demoSearchFn demoMsort c9demo c9item Source.click false
        (Except.ok ()) = Except.ok (s', false) ∧
      s'.errorSlot = none) ∧
    (∀ oNav oExt oLoc, navChosen c9demo c9item oNav oExt oLoc = Except.error "boom" →
      ∃ s', resolve_navigable demoSearchFn demoMsort c9demo c9item Source.click oNav oExt oLoc
          = Except.ok (s', c9demo.active.hasModeOnError) ∧
        s'.errorSlot = some (ErrVal.mk "boom" c9item Source.click c9demo.active.mode)) ∧
    (∀ oNav oExt oLoc, navChosen c9demo c9item oNav oExt oLoc = Except.ok () →
      ∃ s', resolve_navigable demoSearchFn demoMsort c9demo c9item Source.click oNav oExt oLoc
          = Except.ok (s', false) ∧
        s'.errorSlot = none)) :=
  ⟨Or.inl rfl,
    c9_hook_error_capture demoSearchFn demoMsort c9demo c9item Source.click "boom" (Or.inl rfl)⟩


theorem setCacheSort_id (ms : ModeSort) (x : Item) : (setCacheSort ms x).id = x.id := by
  cases ms <;> rfl

theorem findIdxById_none_iff (l : List Item) (i : String) :
    findIdxById l i = none ↔ ∀ x ∈ l, x.id ≠ i := by
  induction l with
  | nil => simp [findIdxById]
  | cons x xs ih =>
    by_cases h : x.id = i
    · simp [findIdxById, h]
    · simp [findIdxById, h, ih]

theorem findIdxById_some (l : List Item) (i : String) :
    ∀ k, findIdxById l i = some k → ∃ x, l.get? k = some x ∧ x.id = i := by
  induction l with
  | nil => intro k hk; simp [findIdxById] at hk
  | cons x xs ih =>
    intro k hk
    rw [show findIdxById (x :: xs) i
        = if x.id = i then some 0 else (findIdxById xs i).map (· + 1) from rfl] at hk
    by_cases h : x.id = i
    · rw [if_pos h] at hk
      cases hk
      exact ⟨x, rfl, h⟩
    · rw [if_neg h, Option.map_eq_some'] at hk
      obtain ⟨k', hk', rfl⟩ := hk
      obtain ⟨y, hy, hyid⟩ := ih k' hk'
      exact ⟨y, hy, hyid⟩

theorem get?_set_self {α : Type} (l : List α) :
    ∀ (k : Nat) (a : α), l.get? k = some a → l.set k a = l := by
  induction l with
  | nil => intro k a h; cases h
  | cons x xs ih =>
    intro k a h
    cases k with
    | zero =>
      cases h
      rfl
    | succ k' =>
      simp only [List.get?_cons_succ] at h
      simp [List.set, ih k' a h]

theorem ids_set_same (l : List Item) (k : Nat) (x y : Item)
    (hget : l.get? k = some x) (hid : y.id = x.id) :
    (l.set k y).map Item.id = l.map Item.id := by
  rw [List.map_set]
  apply get?_set_self
  rw [List.get?_map, hget]
  simp [hid]

theorem regLoop_nodup (ms : ModeSort) (override silent : Bool) :
    ∀ (batch : List Item) (s : ModeState) (keys : List String) (acc : List Item),
      (s.rawAll.map Item.id).Nodup →
      (((regLoop ms override silent batch s keys acc).1).rawAll.map Item.id).Nodup := by
  intro batch
  induction batch with
  | nil => intro s keys acc h; exact h
  | cons candidate rest ih =>
    intro s keys acc h
    cases hidx : findIdxById s.rawAll candidate.id with
    | none =>
      simp only [regLoop, hidx]
      apply ih
      rw [List.map_append]
      have hfresh : candidate.id ∉ s.rawAll.map Item.id := by
        intro hmem
        obtain ⟨x, hx, hxid⟩ := List.mem_map.mp hmem
        exact (findIdxById_none_iff s.rawAll candidate.id).mp hidx x hx hxid
      simp only [List.map_cons, List.map_nil, setCacheSort_id]
      exact List.Nodup.append h (List.nodup_singleton _)
        (by simpa [List.disjoint_singleton] using hfresh)
    | some k =>
      cases override with
      | true =>
        cases hget : s.rawAll.get? k with
        | none =>
          simp only [regLoop, hidx, hget, if_true]
          exact ih _ _ _ h
        | some removed =>
          simp only [regLoop, hidx, hget, if_true]
          apply ih
          obtain ⟨x, hx, hxid⟩ := findIdxById_some s.rawAll candidate.id k hidx
          rw [hx] at hget
          cases hget
          rw [ids_set_same s.rawAll k removed (setCacheSort ms candidate) hx
            (by rw [setCacheSort_id, hxid])]
          exact h
      | false =>
        cases silent with
        | true =>
          simp only [regLoop, hidx, Bool.false_eq_true, if_false, if_true]
          exact ih _ _ _ h
        | false =>
          simp only [regLoop, hidx, Bool.false_eq_true, if_false]
          exact h

theorem register_item_nodup (ms : ModeSort) (s : ModeState) (keys : List String)
    (batch : List Item) (override silent : Bool)
    (h : (s.rawAll.map Item.id).Nodup) :
    (((register_item ms s keys batch override silent).1.1).rawAll.map Item.id).Nodup := by
  have hr := regLoop_nodup ms override silent batch s keys [] h
  rcases hreg : regLoop ms override silent batch s keys [] with ⟨s', keys', ni, err⟩
  rw [hreg] at hr
  simp only at hr
  unfold register_item
  rw [hreg]
  cases err with
  | none => simpa using hr
  | some e => simpa using hr

theorem removeAtIdx_nodup (s : ModeState) (keys : List String) (k : Nat)
    (h : (s.rawAll.map Item.id).Nodup) :
    (((removeAtIdx s keys k).1).rawAll.map Item.id).Nodup := by
  unfold removeAtIdx
  cases hget : s.rawAll.get? k with
  | none => exact h
  | some removed =>
    exact List.Nodup.sublist (List.Sublist.map Item.id (List.eraseIdx_sublist _ _)) h

theorem foldl_removeAtIdx_nodup (idxs : List Nat) :
    ∀ (a : ModeState × List String), ((a.1.rawAll.map Item.id).Nodup) →
      (((idxs.foldl (fun a k => removeAtIdx a.1 a.2 k) a).1).rawAll.map Item.id).Nodup := by
  induction idxs with
  | nil => intro a h; exact h
  | cons k ks ih =>
    intro a h
    exact ih _ (removeAtIdx_nodup a.1 a.2 k h)

theorem unregister_item_nodup (s : ModeState) (keys : List String) (sels : List Selector)
    (h : (s.rawAll.map Item.id).Nodup) :
    (((unregister_item s keys sels).1).rawAll.map Item.id).Nodup := by
  suffices hgen : ∀ (ss : List Selector) (a : ModeState × List String),
      (a.1.rawAll.map Item.id).Nodup →
      ((ss.foldl (fun acc sel => ((collectIndices acc.1.rawAll sel).reverse).foldl
          (fun a k => removeAtIdx a.1 a.2 k) acc) a).1.rawAll.map Item.id).Nodup by
    exact hgen sels (s, keys) h
  intro ss
  induction ss with
  | nil => intro a h'; exact h'
  | cons sel rest ih =>
    intro a h'
    simp only [List.foldl_cons]
    exact ih _ (foldl_removeAtIdx_nodup _ a h')

theorem applyOp_nodup (sorts : String → ModeSort) (p : PaletteReg) (op : PaletteOp)
    (h : ∀ m ∈ p.modes, (m.rawAll.map Item.id).Nodup) :
    ∀ m ∈ (applyOp sorts p op).modes, (m.rawAll.map Item.id).Nodup := by
  cases op with
  | reg mode batch o si =>
    cases hf : findMode p.modes mode with
    | none =>
      simp only [applyOp, hf]
      exact h
    | some m =>
      have hm : m ∈ p.modes := List.mem_of_find?_eq_some hf
      simp only [applyOp, hf, setMode]
      intro x hx
      obtain ⟨y, hy, hxy⟩ := List.mem_map.mp hx
      by_cases hcond : (y.mode == mode) = true
      · rw [if_pos hcond] at hxy
        rw [← hxy]
        exact register_item_nodup (sorts mode) m p.keys batch o si (h m hm)
      · rw [if_neg hcond] at hxy
        rw [← hxy]
        exact h y hy
  | unreg mode sels =>
    cases hf : findMode p.modes mode with
    | none =>
      simp only [applyOp, hf]
      exact h
    | some m =>
      have hm : m ∈ p.modes := List.mem_of_find?_eq_some hf
      simp only [applyOp, hf, setMode]
      intro x hx
      obtain ⟨y, hy, hxy⟩ := List.mem_map.mp hx
      by_cases hcond : (y.mode == mode) = true
      · rw [if_pos hcond] at hxy
        rw [← hxy]
        exact unregister_item_nodup m p.keys sels (h m hm)
      · rw [if_neg hcond] at hxy
        rw [← hxy]
        exact h y hy

/-- C2 (amended): after any sequence of registerItem/unregisterItem
calls, item ids stay unique within each Mode — the invariant the code
actually maintains; cross-mode uniqueness fails (see the
counterexample), because duplicate detection only scans the target
Mode's own rawItems. -/
theorem c2_within_mode_unique (sorts : String → ModeSort) (p : PaletteReg)
    (ops : List PaletteOp)
    (h : ∀ m ∈ p.modes, (m.rawAll.map Item.id).Nodup) :
    ∀ m ∈ (applyOps sorts p ops).modes, (m.rawAll.map Item.id).Nodup := by
  induction ops generalizing p with
  | nil => exact h
  | cons op rest ih =>
    exact ih (applyOp sorts p op) (applyOp_nodup sorts p op h)

/-- C2 witness: the within-mode invariant holds concretely after the
cross-mode duplicate registrations of the counterexample palette. -/
theorem c2_within_mode_unique_witness :
    (∀ m ∈ ({ modes := [emptyModeState "m1" "" NO_RESULTS_MODE_ALL SortMode.sorted,
                emptyModeState "m2" ">" NO_RESULTS_MODE_ALL SortMode.sorted],
              keys := [] } : PaletteReg).modes, (m.rawAll.map Item.id).Nodup) ∧
    (∀ m ∈ c2pal.modes, (m.rawAll.map Item.id).Nodup) := by
  refine ⟨by decide, ?_⟩
  exact c2_within_mode_unique c2sorts
    { modes := [emptyModeState "m1" "" NO_RESULTS_MODE_ALL SortMode.sorted,
                emptyModeState "m2" ">" NO_RESULTS_MODE_ALL SortMode.sorted],
      keys := [] }
    [PaletteOp.reg "m1" [c2item1] false true, PaletteOp.reg "m2" [c2item2] false true]
    (by decide)

theorem insertByCache_perm (x : Item) : ∀ l : List Item, (insertByCache x l).Perm (x :: l) := by
  intro l
  induction l with
  | nil => exact List.Perm.refl _
  | cons y ys ih =>
    rw [insertByCache]
    by_cases h : y.hcacheSort < x.hcacheSort
    · rw [if_pos h]
      exact (List.Perm.cons y ih).trans (List.Perm.swap x y ys)
    · rw [if_neg h]

theorem insertByCache_of_forall_not_lt (x : Item) :
    ∀ l : List Item, (∀ z ∈ l, ¬ z.hcacheSort < x.hcacheSort) → insertByCache x l = x :: l := by
  intro l h
  cases l with
  | nil => rfl
  | cons y ys =>
    rw [insertByCache, if_neg (h y (List.mem_cons_self y ys))]

theorem insertByCache_sorted (x : Item) :
    ∀ l : List Item, KeySorted l → KeySorted (insertByCache x l) := by
  intro l
  induction l with
  | nil =>
    intro _
    exact List.pairwise_singleton _ _
  | cons y ys ih =>
    intro hs
    obtain ⟨hy, hys⟩ := List.pairwise_cons.mp hs
    rw [insertByCache]
    by_cases h : y.hcacheSort < x.hcacheSort
    · rw [if_pos h]
      refine List.pairwise_cons.mpr ⟨?_, ih hys⟩
      intro z hz
      rcases List.mem_cons.mp ((insertByCache_perm x ys).mem_iff.mp hz) with hzx | hzys
      · rw [hzx]
        exact le_of_lt h
      · exact hy z hzys
    · rw [if_neg h]
      refine List.pairwise_cons.mpr ⟨?_, hs⟩
      intro z hz
      rcases List.mem_cons.mp hz with hzy | hzys
      · rw [hzy]
        exact le_of_not_lt h
      · exact le_trans (le_of_not_lt h) (hy z hzys)

theorem defaultItemSorter_perm (l : List Item) : (defaultItemSorter l).Perm l := by
  induction l with
  | nil => exact List.Perm.refl _
  | cons x xs ih =>
    exact (insertByCache_perm x (defaultItemSorter xs)).trans (List.Perm.cons x ih)

theorem defaultItemSorter_sorted (l : List Item) : KeySorted (defaultItemSorter l) := by
  induction l with
  | nil => exact List.Pairwise.nil
  | cons x xs ih => exact insertByCache_sorted x (defaultItemSorter xs) ih

theorem insertByCache_filter (p : Item → Bool) (x : Item) :
    ∀ l : List Item, KeySorted l →
      (insertByCache x l).filter p
        = if p x then insertByCache x (l.filter p) else l.filter p := by
  intro l
  induction l with
  | nil =>
    intro _
    cases hp : p x <;> simp [insertByCache, List.filter, hp]
  | cons y ys ih =>
    intro hs
    obtain ⟨hy, hys⟩ := List.pairwise_cons.mp hs
    rw [insertByCache]
    by_cases h : y.hcacheSort < x.hcacheSort
    · rw [if_pos h, List.filter_cons, ih hys, List.filter_cons]
      cases hpy : p y with
      | true =>
        cases hpx : p x with
        | true => simp [insertByCache, h]
        | false => simp
      | false =>
        cases hpx : p x with
        | true => simp
        | false => simp
    · rw [if_neg h]
      cases hpx : p x with
      | true =>
        have hnot : ∀ z ∈ (y :: ys).filter p, ¬ z.hcacheSort < x.hcacheSort := by
          intro z hz
          have hz' : z ∈ y :: ys := List.mem_of_mem_filter hz
          rcases List.mem_cons.mp hz' with hzy | hzys
          · rw [hzy]; exact h
          · intro hlt
            exact absurd (lt_of_lt_of_le hlt (le_of_not_lt h)) (not_lt.mpr (hy z hzys))
        rw [insertByCache_of_forall_not_lt x _ hnot]
        simp [List.filter_cons, hpx]
      | false =>
        simp [List.filter_cons, hpx]

theorem defaultItemSorter_filter (p : Item → Bool) (l : List Item) :
    (defaultItemSorter l).filter p = defaultItemSorter (l.filter p) := by
  induction l with
  | nil => rfl
  | cons x xs ih =>
    rw [show defaultItemSorter (x :: xs) = insertByCache x (defaultItemSorter xs) from rfl]
    rw [insertByCache_filter p x _ (defaultItemSorter_sorted xs), ih, List.filter_cons]
    cases hpx : p x with
    | true => simp [defaultItemSorter]
    | false => simp [defaultItemSorter]

theorem removeFirstById_eq_filter (i : String) :
    ∀ l : List Item, (l.map Item.id).Nodup →
      removeFirstById l i = l.filter (fun x => !(x.id == i)) := by
  intro l
  induction l with
  | nil => intro _; rfl
  | cons x xs ih =>
    intro hnd
    have hnd' : (x.id ∉ xs.map Item.id) ∧ (xs.map Item.id).Nodup :=
      List.nodup_cons.mp (by simpa using hnd)
    rw [removeFirstById, List.filter_cons]
    by_cases h : x.id = i
    · rw [if_pos h]
      have hb : (!(x.id == i)) = false := by simp [h]
      rw [hb]
      simp only [Bool.false_eq_true, if_false]
      refine (List.filter_eq_self.mpr ?_).symm
      intro y hy
      have hne : y.id ≠ x.id := fun hxy => hnd'.1 (hxy ▸ List.mem_map_of_mem Item.id hy)
      simp [← h, hne]
    · rw [if_neg h]
      have hb : (!(x.id == i)) = true := by simp [h]
      rw [hb]
      simp only [ite_true]
      rw [ih hnd'.2]

theorem foldl_removeFirstById_eq_filter :
    ∀ (delta : List Item) (l : List Item), (l.map Item.id).Nodup →
      delta.foldl (fun z d => removeFirstById z d.id) l
        = l.filter (fun x => !((delta.map Item.id).contains x.id)) := by
  intro delta
  induction delta with
  | nil =>
    intro l _
    simp [List.foldl_nil]
  | cons d rest ih =>
    intro l hnd
    have hbase : ((removeFirstById l d.id).map Item.id).Nodup := by
      rw [removeFirstById_eq_filter d.id l hnd]
      exact List.Nodup.sublist (List.Sublist.map Item.id (List.filter_sublist l)) hnd
    rw [List.foldl_cons, ih _ hbase, removeFirstById_eq_filter d.id l hnd,
      List.filter_filter]
    refine List.filter_congr ?_
    intro x hx
    simp only [List.map_cons, List.contains_cons, Bool.not_or]
    exact Bool.and_comm _ _

theorem sorterApply_stock (ms : ModeSort) (hstock : ∀ f, ms ≠ ModeSort.custom f)
    (l : List Item) : sorterApply ms l = defaultItemSorter l := by
  cases ms with
  | search m => rfl
  | keys m => rfl
  | custom f => exact absurd rfl (hstock f)

theorem applySortPipeline_perm (ms : ModeSort) (hstock : ∀ f, ms ≠ ModeSort.custom f)
    (sm : SortMode) (l : List Item) : (applySortPipeline ms sm l).Perm l := by
  rw [applySortPipeline]
  by_cases hu : sm = SortMode.unsorted
  · rw [if_pos hu]
  · rw [if_neg hu]
    simp only [sorterApply_stock ms hstock]
    by_cases hr : sm = SortMode.reversed
    · rw [if_pos hr]
      exact (List.reverse_perm _).trans (defaultItemSorter_perm l)
    · rw [if_neg hr]
      exact defaultItemSorter_perm l

theorem applySortPipeline_filter_restore (ms : ModeSort)
    (hstock : ∀ f, ms ≠ ModeSort.custom f) (sm : SortMode)
    (A delta : List Item)
    (hfresh : ∀ d ∈ delta, d.id ∉ A.map Item.id) :
    (applySortPipeline ms sm (A ++ delta)).filter
        (fun x => !((delta.map Item.id).contains x.id))
      = applySortPipeline ms sm A := by
  have hA : A.filter (fun x => !((delta.map Item.id).contains x.id)) = A := by
    refine List.filter_eq_self.mpr ?_
    intro a ha
    have hmem : a.id ∉ delta.map Item.id := by
      intro hmem
      obtain ⟨d, hd, hdi⟩ := List.mem_map.mp hmem
      exact hfresh d hd (hdi ▸ List.mem_map_of_mem Item.id ha)
    simpa using hmem
  have hD : delta.filter (fun x => !((delta.map Item.id).contains x.id)) = [] := by
    refine List.filter_eq_nil_iff.mpr ?_
    intro d hd
    have hmem : d.id ∈ delta.map Item.id := List.mem_map_of_mem Item.id hd
    simpa using hmem
  have hbase : (A ++ delta).filter (fun x => !((delta.map Item.id).contains x.id)) = A := by
    rw [List.filter_append, hA, hD, List.append_nil]
  rw [applySortPipeline, applySortPipeline]
  by_cases hu : sm = SortMode.unsorted
  · rw [if_pos hu, if_pos hu]
    exact hbase
  · rw [if_neg hu, if_neg hu]
    simp only [sorterApply_stock ms hstock]
    by_cases hr : sm = SortMode.reversed
    · rw [if_pos hr, if_pos hr, List.filter_reverse, defaultItemSorter_filter, hbase]
    · rw [if_neg hr, if_neg hr, defaultItemSorter_filter, hbase]

theorem mem_actKeyIds : ∀ (l : List Item) (i : String), i ∈ actKeyIds l → i ∈ l.map Item.id := by
  intro l
  induction l with
  | nil => intro i hi; cases hi
  | cons d rest ih =>
    intro i hi
    rw [actKeyIds] at hi
    by_cases hc : hasShortcutProp d = true ∧ d.shortcut ≠ []
    · rw [if_pos hc] at hi
      rcases List.mem_cons.mp hi with h | h
      · rw [h]; exact List.mem_cons_self _ _
      · exact List.mem_cons_of_mem _ (ih i h)
    · rw [if_neg hc] at hi
      exact List.mem_cons_of_mem _ (ih i hi)

theorem findIdxById_append_cons_self :
    ∀ (A : List Item) (d : Item) (r : List Item), d.id ∉ A.map Item.id →
      findIdxById (A ++ d :: r) d.id = some A.length := by
  intro A
  induction A with
  | nil =>
    intro d r _
    simp [findIdxById]
  | cons a A ih =>
    intro d r h
    have ha : ¬ a.id = d.id := by
      intro hh
      exact h (hh ▸ List.mem_map_of_mem Item.id (List.mem_cons_self a A))
    rw [List.cons_append, findIdxById, if_neg ha,
      ih d r (fun hm => h (List.mem_cons_of_mem _ hm))]
    rfl

theorem eraseIdx_append_len {α : Type} :
    ∀ (V : List α) (n : Nat) (x : α) (r : List α), V.length = n →
      (V ++ x :: r).eraseIdx n = V ++ r := by
  intro V
  induction V with
  | nil =>
    intro n x r h
    rw [← h]
    rfl
  | cons v V ih =>
    intro n x r h
    rw [← h]
    simp only [List.cons_append, List.length_cons, List.eraseIdx_cons_succ]
    rw [ih V.length x r rfl]

theorem removeFirstById_append_not_mem :
    ∀ (S : List Item) (l : List Item) (i : String), i ∉ S.map Item.id →
      removeFirstById (S ++ l) i = S ++ removeFirstById l i := by
  intro S
  induction S with
  | nil => intro l i _; rfl
  | cons a S ih =>
    intro l i h
    have ha : ¬ a.id = i := by
      intro hh
      exact h (hh ▸ List.mem_map_of_mem Item.id (List.mem_cons_self a S))
    rw [List.cons_append, removeFirstById, if_neg ha,
      ih l i (fun hm => h (List.mem_cons_of_mem _ hm))]
    rfl

theorem removeFirstById_cons_self (d : Item) (r : List Item) :
    removeFirstById (d :: r) d.id = r := by
  rw [removeFirstById, if_pos rfl]

theorem keys_step_eq (keys : List String) (n : Item) (h : n.id ∉ keys) :
    (if hasShortcutProp n = true then addShortcutKey keys n else keys)
      = keys ++ actKeyIds [n] := by
  by_cases hp : hasShortcutProp n = true
  · rw [if_pos hp, addShortcutKey]
    by_cases hsc : n.shortcut = []
    · rw [if_pos hsc]
      rw [show actKeyIds [n] = if hasShortcutProp n = true ∧ n.shortcut ≠ []
          then n.id :: actKeyIds [] else actKeyIds [] from rfl]
      rw [if_neg (fun hc => hc.2 hsc)]
      simp [actKeyIds]
    · rw [if_neg hsc]
      rw [if_neg (by simpa using h)]
      rw [show actKeyIds [n] = if hasShortcutProp n = true ∧ n.shortcut ≠ []
          then n.id :: actKeyIds [] else actKeyIds [] from rfl]
      rw [if_pos ⟨hp, hsc⟩]
      rfl
  · rw [if_neg hp]
    rw [show actKeyIds [n] = if hasShortcutProp n = true ∧ n.shortcut ≠ []
        then n.id :: actKeyIds [] else actKeyIds [] from rfl]
    rw [if_neg (fun hc => hp hc.1)]
    simp [actKeyIds]

theorem actKeyIds_cons (d : Item) (l : List Item) :
    actKeyIds (d :: l) = actKeyIds [d] ++ actKeyIds l := by
  by_cases hc : hasShortcutProp d = true ∧ d.shortcut ≠ [] <;>
    simp [actKeyIds, hc]

theorem regLoop_ft (ms : ModeSort) :
    ∀ (batch : List Item) (s : ModeState) (keys : List String) (acc : List Item),
      (∀ i ∈ keys, i ∈ s.rawAll.map Item.id) →
      ∃ delta : List Item,
        regLoop ms false true batch s keys acc =
          ({ s with rawAll := s.rawAll ++ delta,
                    itemsView := s.itemsView ++ delta,
                    searcherList := s.searcherList ++ delta },
            keys ++ actKeyIds delta, acc ++ delta, none) ∧
        (∀ d ∈ delta, d.id ∉ s.rawAll.map Item.id) ∧
        (delta.map Item.id).Nodup := by
  intro batch
  induction batch with
  | nil =>
    intro s keys acc hkeys
    refine ⟨[], ?_, ?_, ?_⟩
    · simp [regLoop, actKeyIds]
    · intro d hd; cases hd
    · simp
  | cons c rest ih =>
    intro s keys acc hkeys
    cases hf : findIdxById s.rawAll c.id with
    | some i =>
      obtain ⟨delta, heq, hfr, hnd⟩ := ih s keys acc hkeys
      have hstep : regLoop ms false true (c :: rest) s keys acc
          = regLoop ms false true rest s keys acc := by
        simp [regLoop, hf]
      exact ⟨delta, by rw [hstep]; exact heq, hfr, hnd⟩
    | none =>
      have hidc : c.id ∉ s.rawAll.map Item.id := by
        intro hmem
        obtain ⟨x, hx, hxid⟩ := List.mem_map.mp hmem
        exact ((findIdxById_none_iff _ _).mp hf x hx) hxid
      have hnid : (setCacheSort ms c).id = c.id := setCacheSort_id ms c
      have hnk : (setCacheSort ms c).id ∉ keys := by
        intro hmem
        exact hidc (hnid ▸ hkeys _ hmem)
      have hkeys' : ∀ i ∈ keys ++ actKeyIds [setCacheSort ms c],
          i ∈ (({ s with rawAll := s.rawAll ++ [setCacheSort ms c],
                         itemsView := s.itemsView ++ [setCacheSort ms c],
                         searcherList := s.searcherList ++ [setCacheSort ms c] } :
              ModeState)).rawAll.map Item.id := by
        intro i hi
        rcases List.mem_append.mp hi with h | h
        · simp only [List.map_append]
          exact List.mem_append_left _ (hkeys i h)
        · have hone := mem_actKeyIds _ i h
          simp only [List.map_cons, List.map_nil, List.mem_singleton] at hone
          simp [hone]
      obtain ⟨delta', heq, hfr, hnd⟩ := ih
        { s with rawAll := s.rawAll ++ [setCacheSort ms c],
                 itemsView := s.itemsView ++ [setCacheSort ms c],
                 searcherList := s.searcherList ++ [setCacheSort ms c] }
        (keys ++ actKeyIds [setCacheSort ms c]) (acc ++ [setCacheSort ms c]) hkeys'
      refine ⟨setCacheSort ms c :: delta', ?_, ?_, ?_⟩
      · have hstep : regLoop ms false true (c :: rest) s keys acc
            = regLoop ms false true rest
                { s with rawAll := s.rawAll ++ [setCacheSort ms c],
                         itemsView := s.itemsView ++ [setCacheSort ms c],
                         searcherList := s.searcherList ++ [setCacheSort ms c] }
                (keys ++ actKeyIds [setCacheSort ms c]) (acc ++ [setCacheSort ms c]) := by
          simp only [regLoop, hf]
          rw [keys_step_eq keys (setCacheSort ms c) hnk]
        rw [hstep, heq,
          show actKeyIds (setCacheSort ms c :: delta')
              = actKeyIds [setCacheSort ms c] ++ actKeyIds delta'
            from actKeyIds_cons _ _]
        simp [List.append_assoc]
      · intro d hd
        rcases List.mem_cons.mp hd with h | h
        · rw [h, hnid]; exact hidc
        · intro hmem
          exact hfr d h (by simp [hmem])
      · rw [List.map_cons, List.nodup_cons]
        refine ⟨?_, hnd⟩
        intro hmem
        obtain ⟨d, hd, hdid⟩ := List.mem_map.mp hmem
        exact hfr d hd (by simp [hdid])

theorem register_item_cleanup_restore :
    ∀ (delta : List Item) (s₀ : ModeState) (keys₀ : List String) (Z : List Item),
      s₀.itemsView.length = s₀.rawAll.length →
      (∀ d ∈ delta, d.id ∉ s₀.rawAll.map Item.id) →
      (∀ d ∈ delta, d.id ∉ s₀.searcherList.map Item.id) →
      (∀ d ∈ delta, d.id ∉ keys₀) →
      (delta.map Item.id).Nodup →
      register_item_cleanup
        { s₀ with rawAll := s₀.rawAll ++ delta,
                  itemsView := s₀.itemsView ++ delta,
                  searcherList := s₀.searcherList ++ delta,
                  rawAllSorted := Z }
        (keys₀ ++ actKeyIds delta) delta
      = ({ s₀ with rawAllSorted := delta.foldl (fun z d => removeFirstById z d.id) Z },
          keys₀) := by
  intro delta
  induction delta with
  | nil =>
    intro s₀ keys₀ Z hlen hfrA hfrS hfrK hnd
    simp [register_item_cleanup, actKeyIds]
  | cons d rest ih =>
    intro s₀ keys₀ Z hlen hfrA hfrS hfrK hnd
    have hdA : d.id ∉ s₀.rawAll.map Item.id := hfrA d (List.mem_cons_self d rest)
    have hdS : d.id ∉ s₀.searcherList.map Item.id := hfrS d (List.mem_cons_self d rest)
    have hdK : d.id ∉ keys₀ := hfrK d (List.mem_cons_self d rest)
    rw [List.map_cons, List.nodup_cons] at hnd
    have hdR : d.id ∉ rest.map Item.id := hnd.1
    have hndr : (rest.map Item.id).Nodup := hnd.2
    have hfind : findIdxById (s₀.rawAll ++ d :: rest) d.id = some s₀.rawAll.length :=
      findIdxById_append_cons_self _ _ _ hdA
    have hkeys1 : (if hasShortcutProp d = true
          then removeShortcutKey (keys₀ ++ actKeyIds (d :: rest)) d
          else keys₀ ++ actKeyIds (d :: rest)) = keys₀ ++ actKeyIds rest := by
      by_cases hp : hasShortcutProp d = true
      · rw [if_pos hp, removeShortcutKey]
        by_cases hsc : d.shortcut = []
        · rw [show actKeyIds (d :: rest) = actKeyIds rest from by
            rw [actKeyIds, if_neg (fun hc => hc.2 hsc)]]
          apply List.erase_of_not_mem
          intro hmem
          rcases List.mem_append.mp hmem with h | h
          · exact hdK h
          · exact hdR (mem_actKeyIds _ _ h)
        · rw [show actKeyIds (d :: rest) = d.id :: actKeyIds rest from by
            rw [actKeyIds, if_pos ⟨hp, hsc⟩]]
          rw [List.erase_append_right _ hdK, List.erase_cons_head]
      · rw [if_neg hp]
        rw [show actKeyIds (d :: rest) = actKeyIds rest from by
          rw [actKeyIds, if_neg (fun hc => hp hc.1)]]
    have hstep : register_item_cleanup
          { s₀ with rawAll := s₀.rawAll ++ d :: rest,
                    itemsView := s₀.itemsView ++ d :: rest,
                    searcherList := s₀.searcherList ++ d :: rest,
                    rawAllSorted := Z }
          (keys₀ ++ actKeyIds (d :: rest)) (d :: rest)
        = register_item_cleanup
          { s₀ with rawAll := s₀.rawAll ++ rest,
                    itemsView := s₀.itemsView ++ rest,
                    searcherList := s₀.searcherList ++ rest,
                    rawAllSorted := removeFirstById Z d.id }
          (keys₀ ++ actKeyIds rest) rest := by
      simp only [register_item_cleanup, List.foldl_cons]
      rw [hfind]
      simp only
      rw [eraseIdx_append_len s₀.rawAll s₀.rawAll.length d rest rfl,
        eraseIdx_append_len s₀.itemsView s₀.rawAll.length d rest hlen,
        removeFirstById_append_not_mem s₀.searcherList (d :: rest) d.id hdS,
        removeFirstById_cons_self, hkeys1]
    rw [hstep, List.foldl_cons]
    exact ih s₀ keys₀ (removeFirstById Z d.id) hlen
      (fun x hx => hfrA x (List.mem_cons_of_mem d hx))
      (fun x hx => hfrS x (List.mem_cons_of_mem d hx))
      (fun x hx => hfrK x (List.mem_cons_of_mem d hx))
      hndr

/-- C4: amended round-trip guarantee for registerItem under a stock sort
strategy (by-search-text or by-keys, not a caller-supplied custom
sorter): registering a batch with override=false and silent=true into a
consistent mode state and then running the returned cleanup closure
restores the original mode state and shortcut registry exactly. -/
theorem c4_round_trip_amended (ms : ModeSort) (s : ModeState)
    (keys : List String) (batch : List Item)
    (hstock : ∀ f, ms ≠ ModeSort.custom f)
    (hview : s.itemsView = s.rawAll)
    (hnodup : (s.rawAll.map Item.id).Nodup)
    (hsorted : s.rawAllSorted = applySortPipeline ms s.sortMode s.rawAll)
    (hsearch : ∀ i ∈ s.searcherList.map Item.id, i ∈ s.rawAll.map Item.id)
    (hkeys : ∀ i ∈ keys, i ∈ s.rawAll.map Item.id) :
    ∃ st' keys' newItems,
      register_item ms s keys batch false true = ((st', keys'), Except.ok newItems) ∧
      register_item_cleanup st' keys' newItems = (s, keys) := by
  obtain ⟨delta, heq, hfr, hnd⟩ := regLoop_ft ms batch s keys [] hkeys
  refine ⟨{ s with rawAll := s.rawAll ++ delta,
                   itemsView := s.itemsView ++ delta,
                   searcherList := s.searcherList ++ delta,
                   rawAllSorted := applySortPipeline ms s.sortMode (s.rawAll ++ delta) },
    keys ++ actKeyIds delta, delta, ?_, ?_⟩
  · simp only [register_item, heq, List.nil_append]
  · have hfrS : ∀ d ∈ delta, d.id ∉ s.searcherList.map Item.id :=
      fun d hd hm => hfr d hd (hsearch _ hm)
    have hfrK : ∀ d ∈ delta, d.id ∉ keys :=
      fun d hd hm => hfr d hd (hkeys _ hm)
    have hlen : s.itemsView.length = s.rawAll.length := by rw [hview]
    have hclean := register_item_cleanup_restore delta s keys
      (applySortPipeline ms s.sortMode (s.rawAll ++ delta)) hlen hfr hfrS hfrK hnd
    rw [hclean]
    have hZperm : (applySortPipeline ms s.sortMode (s.rawAll ++ delta)).Perm
        (s.rawAll ++ delta) :=
      applySortPipeline_perm ms hstock s.sortMode (s.rawAll ++ delta)
    have hZnodup :
        ((applySortPipeline ms s.sortMode (s.rawAll ++ delta)).map Item.id).Nodup := by
      refine ((hZperm.map Item.id).nodup_iff).mpr ?_
      rw [List.map_append]
      refine List.Nodup.append hnodup hnd ?_
      intro a ha hb
      obtain ⟨d, hd, hdid⟩ := List.mem_map.mp hb
      exact hfr d hd (by rw [hdid]; exact ha)
    have hfold : delta.foldl (fun z d => removeFirstById z d.id)
          (applySortPipeline ms s.sortMode (s.rawAll ++ delta)) = s.rawAllSorted := by
      rw [foldl_removeFirstById_eq_filter delta _ hZnodup,
        applySortPipeline_filter_restore ms hstock s.sortMode s.rawAll delta hfr, hsorted]
    rw [hfold]

theorem c4_round_trip_amended_witness :
    ((∀ f, demoMsort ≠ ModeSort.custom f) ∧
      c4amState.itemsView = c4amState.rawAll ∧
      (c4amState.rawAll.map Item.id).Nodup ∧
      c4amState.rawAllSorted
        = applySortPipeline demoMsort c4amState.sortMode c4amState.rawAll ∧
      (∀ i ∈ c4amState.searcherList.map Item.id, i ∈ c4amState.rawAll.map Item.id) ∧
      (∀ i ∈ ([] : List String), i ∈ c4amState.rawAll.map Item.id)) ∧
    ∃ st' keys' newItems,
      register_item demoMsort c4amState [] [mkItem "a", mkItem "b"] false true
        = ((st', keys'), Except.ok newItems) ∧
      register_item_cleanup st' keys' newItems = (c4amState, []) := by
  refine ⟨⟨?_, ?_, ?_, ?_, ?_, ?_⟩, ?_⟩
  · intro f h
    simp [demoMsort] at h
  · decide
  · decide
  · decide
  · decide
  · decide
  · exact c4_round_trip_amended demoMsort c4amState [] [mkItem "a", mkItem "b"]
      (fun f h => nomatch h) (by decide) (by decide) (by decide) (by decide) (by decide)
